import Mathlib

/-!
Shallow embedding of the `file-inspector` binary-format parsers
(`src/parse/buffer.ts`, `src/parse/bmp.ts`, `src/parser/png.ts`,
`src/parser/gif.ts`, the EXIF, ZIP and ICC modules) and proofs about them.

Modelling conventions:
* a byte buffer is a `List Nat` of values `< 256` (`DataView` reads are
  modelled by `List.get?`, and a failed read models the `RangeError` a
  `DataView` accessor throws);
* the mutable cursor (`this.index`) is threaded explicitly: an operation
  takes the buffer and the current index and returns the produced value
  together with the new index, inside `Except Err`;
* JavaScript exceptions are the `Except.error` branch; the few loops of the
  source are modelled with a fuel parameter large enough that fuel
  exhaustion (`Err.fuel`) is unreachable, because every loop iteration of
  the source advances the cursor by at least one byte or bit;
* JavaScript 32-bit operators (`>>`, `>>>`, `&`) are modelled with explicit
  `ToInt32`/`ToUint32` conversions where the operand can exceed 2^31.
-/

namespace FileInspector

set_option maxRecDepth 4096

/-- A half-open byte range; `stop` renders the source's `end` field (a Lean keyword). -/
structure Span where
  start : Nat
  stop : Nat
deriving Repr, DecidableEq

/-- Error kinds produced by the modelled code. Each constructor corresponds to one
`throw` site of the source (`oob` is the `RangeError` of an out-of-range `DataView`
access, `eof` the `'unexpected EOF'` of `getSpan`/`getSpanTo`, `bitOOB` the
`'bit parser out of bounds'`, and so on). `fuel` is a modelling artifact for the
fuel-bounded loops and is unreachable with the fuel the top-level parsers supply. -/
inductive Err where
  | oob
  | eof
  | unexpectedByte (expected found : Nat)
  | invalidFieldType (t : Nat)
  | missingCentralDirectory
  | unexpectedExtension
  | unexpectedTrailerByte
  | invalidColorTableLength (n : Nat)
  | bitOOB
  | endCodeNotAtEnd
  | fuel
deriving Repr, DecidableEq

abbrev Bytes := List Nat

/-- JavaScript `ToInt32` of a non-negative number. -/
def toInt32 (x : Nat) : Int :=
  let r : Nat := x % 2 ^ 32
  if r < 2 ^ 31 then (r : Int) else (r : Int) - 2 ^ 32

/-- JavaScript signed right shift `x >> n` for a non-negative `x` (`ToInt32`, then an
arithmetic shift, i.e. a floor division by `2 ^ n`). -/
def jsShr (x : Nat) (n : Nat) : Int :=
  Int.fdiv (toInt32 x) (2 ^ n)

/-- JavaScript `x & m` for an `Int` left operand and a small non-negative mask
(`ToInt32` of the mask is itself; the result is the masked low bits, non-negative). -/
def jsAndI (x : Int) (m : Nat) : Int :=
  ((x % (2 ^ 32 : Int)).toNat &&& m : Nat)

/-- JavaScript `x & m` for a non-negative `x` and small mask. -/
def jsAnd (x : Nat) (m : Nat) : Nat :=
  (x % 2 ^ 32) &&& m

namespace BufferParser

/-- `DataView.getUint8`: the byte at `i`, or a `RangeError` out of range. -/
def getUint8 (b : Bytes) (i : Nat) : Except Err Nat :=
  match b.get? i with
  | some v => .ok v
  | none => .error .oob

/-- `DataView.getUint16(i, littleEndian)`. -/
def getUint16 (b : Bytes) (le : Bool) (i : Nat) : Except Err Nat := do
  let b0 ← getUint8 b i
  let b1 ← getUint8 b (i + 1)
  .ok (if le then b0 + b1 * 256 else b0 * 256 + b1)

/-- `DataView.getUint32(i, littleEndian)`. -/
def getUint32 (b : Bytes) (le : Bool) (i : Nat) : Except Err Nat := do
  let b0 ← getUint8 b i
  let b1 ← getUint8 b (i + 1)
  let b2 ← getUint8 b (i + 2)
  let b3 ← getUint8 b (i + 3)
  .ok (if le then b0 + b1 * 256 + b2 * 65536 + b3 * 16777216
       else b0 * 16777216 + b1 * 65536 + b2 * 256 + b3)

/-- `DataView.getInt32(i, littleEndian)`: the same 32 bits, two's-complement signed. -/
def getInt32 (b : Bytes) (le : Bool) (i : Nat) : Except Err Int := do
  let u ← getUint32 b le i
  .ok (if u < 2 ^ 31 then (u : Int) else (u : Int) - 2 ^ 32)

/-- `BufferParser.next()`: read the byte at the cursor, advance by one. -/
def next (b : Bytes) (i : Nat) : Except Err (Nat × Nat) := do
  let v ← getUint8 b i
  .ok (v, i + 1)

/-- `BufferParser.peek()`: `null` when `index > byteLength`; otherwise a
`getUint8` at `index` (which throws when `index = byteLength`). -/
def peek (b : Bytes) (i : Nat) : Except Err (Option Nat) :=
  if b.length < i then .ok none
  else do
    let v ← getUint8 b i
    .ok (some v)

/-- `BufferParser.readU16()`. -/
def readU16 (b : Bytes) (le : Bool) (i : Nat) : Except Err (Nat × Nat) := do
  let v ← getUint16 b le i
  .ok (v, i + 2)

/-- `BufferParser.readU32()`. -/
def readU32 (b : Bytes) (le : Bool) (i : Nat) : Except Err (Nat × Nat) := do
  let v ← getUint32 b le i
  .ok (v, i + 4)

/-- `BufferParser.readI32()`. -/
def readI32 (b : Bytes) (le : Bool) (i : Nat) : Except Err (Int × Nat) := do
  let v ← getInt32 b le i
  .ok (v, i + 4)

/-- The scan of `readNullTerminatedString`, expressed structurally on the bytes
from the cursor on: the absolute index one past the first zero byte, or `none`
when the scan runs off the end (the source's `getInt8` would throw there). -/
def scanNull : Bytes → Nat → Option Nat
  | [], _ => none
  | 0 :: _, i => some (i + 1)
  | (_ + 1) :: rest, i => scanNull rest (i + 1)

/-- `BufferParser.readNullTerminatedString()`: span from the cursor through and
including the terminating zero byte. -/
def readNullTerminatedString (b : Bytes) (i : Nat) : Except Err (Span × Nat) :=
  match scanNull (b.drop i) i with
  | none => .error .oob
  | some e => .ok (⟨i, e⟩, e)

/-- `BufferParser.getSpan(length)`, with the mutation visible: the second component is
the cursor after the call, which is set to `start + length` **before** the bounds
check, also when the call fails. -/
def getSpan (b : Bytes) (i : Nat) (length : Nat) : (Except Err Span) × Nat :=
  let e := i + length
  (if b.length < e then .error .eof else .ok ⟨i, e⟩, e)

/-- `BufferParser.getSpanTo(end)`, with the mutation visible as in `getSpan`. -/
def getSpanTo (b : Bytes) (i : Nat) (e : Nat) : (Except Err Span) × Nat :=
  (if b.length < e then .error .eof else .ok ⟨i, e⟩, e)

/-- `getSpan` as used by the parsers, which abort on the thrown error. -/
def getSpanE (b : Bytes) (i : Nat) (length : Nat) : Except Err (Span × Nat) :=
  match getSpan b i length with
  | (.ok s, j) => .ok (s, j)
  | (.error er, _) => .error er

/-- `getSpanTo` as used by the parsers. -/
def getSpanToE (b : Bytes) (i : Nat) (e : Nat) : Except Err (Span × Nat) :=
  match getSpanTo b i e with
  | (.ok s, j) => .ok (s, j)
  | (.error er, _) => .error er

/-- The byte comparison loop of `consumeIfEquals` (all reads are in range when it
is reached, so a defaulted read is exact). -/
def matchBytes (b : Bytes) : Nat → Bytes → Bool
  | _, [] => true
  | i, x :: rest => (b.getD i 0 == x) && matchBytes b (i + 1) rest

/-- `BufferParser.consumeIfEquals(bytes)`: `false` without moving when
`bytes.length + index >= byteLength` or on a mismatch; on a match, advance
past the compared bytes. -/
def consumeIfEquals (b : Bytes) (i : Nat) (bs : Bytes) : Bool × Nat :=
  if b.length ≤ bs.length + i then (false, i)
  else if matchBytes b i bs then (true, i + bs.length) else (false, i)

/-- `BufferParser.bytesForSpan(span)`: `buffer.slice(start, end)`. -/
def bytesForSpan (b : Bytes) (s : Span) : Bytes :=
  (b.take s.stop).drop s.start

end BufferParser

namespace BitParser

/-- `BitParser.readBit()`: bit `cursor % 8` of byte `cursor / 8`, LSB first. -/
def readBit (b : Bytes) (cursor : Nat) : Except Err (Nat × Nat) :=
  match b.get? (cursor / 8) with
  | none => .error .bitOOB
  | some byte => .ok ((byte >>> (cursor % 8)) &&& 1, cursor + 1)

/-- The loop of `readNBits`: `out |= readBit() << i`. The accumulator is kept as a
`Nat`; the `% 32` on the shift distance mirrors the mod-32 wrap of the JavaScript
`<<`, so the accumulator is zero exactly when the JavaScript `out` is. -/
def readNBitsGo (b : Bytes) : Nat → Nat → Nat → Nat → Except Err (Nat × Nat)
  | cursor, 0, _, acc => .ok (acc, cursor)
  | cursor, n + 1, i, acc => do
    let (bit, c2) ← readBit b cursor
    readNBitsGo b c2 n (i + 1) (acc ||| (bit <<< (i % 32)))

/-- `BitParser.readNBits(bits)`. -/
def readNBits (b : Bytes) (cursor : Nat) (n : Nat) : Except Err (Nat × Nat) :=
  readNBitsGo b cursor n 0 0

/-- `BitParser.atEnd()`: reads **all** remaining bits
(`readNBits(byteLength * 8 - cursor)`) and reports whether they were all zero.
The truncated subtraction matches the JavaScript loop, which runs zero times
when the remaining count is negative. -/
def atEnd (b : Bytes) (cursor : Nat) : Except Err (Bool × Nat) := do
  let (last, c2) ← readNBits b cursor (8 * b.length - cursor)
  .ok (last == 0, c2)

end BitParser

end FileInspector

/-! ### EXIF / TIFF IFD reader (the `ExifParser` module)

The parser constructs its `BufferParser` without the `littleEndian` argument, so every
multi-byte read below is big-endian (`le := false`), independently of the byte-order
marker it reads. The static `TAGS` display-name table is omitted from the model: the
source's `name` field is a pure lookup on `tag` and carries no other information. -/

namespace FileInspector

namespace Exif

inductive Item where
  | int (n : Int)
  | rat (numerator denom : Int)
deriving Repr, DecidableEq

inductive Value where
  | scalar (n : Int)
  | seq (xs : List Item)
deriving Repr, DecidableEq

structure Field where
  tag : Nat
  type : Nat
  count : Nat
  valueOffset : Nat
  value : Value
deriving Repr, DecidableEq

/-- `fieldTypeSize(type)`: byte width per element, or the thrown
`invalid field type` error. -/
def fieldTypeSize (t : Nat) : Except Err Nat :=
  match t with
  | 1 | 2 | 7 => .ok 1
  | 3 => .ok 2
  | 4 | 9 => .ok 4
  | 5 | 10 => .ok 8
  | _ => .error (.invalidFieldType t)

/-- The `case 1/2/7` inline packing: bytes of `value_or_offset` from the most
significant down; note the unmasked JavaScript `>> 24` on the first byte. -/
def byteInline (count vo : Nat) : Value :=
  let firstByte := jsShr vo 24
  if count = 1 then .scalar firstByte else
  let secondByte := jsAndI (jsShr vo 16) 255
  if count = 2 then .seq [.int firstByte, .int secondByte] else
  let thirdByte := jsAndI (jsShr vo 8) 255
  if count = 3 then .seq [.int firstByte, .int secondByte, .int thirdByte] else
  .seq [.int firstByte, .int secondByte, .int thirdByte, .int (jsAnd vo 255)]

/-- The `case 3` (SHORT) inline packing: unmasked `>> 16` for index 0, masked low
half for index 1. -/
def shortInline (count vo : Nat) : Value :=
  if count = 1 then .scalar (jsShr vo 16)
  else .seq [.int (jsShr vo 16), .int (jsAnd vo 0xFFFF)]

/-- The out-of-line loop body of `readFieldValue`: read `count` elements of the given
type starting at the cursor. The final catch-all mirrors the switch without a default
(nothing pushed); it is unreachable because `fieldTypeSize` already rejected the type. -/
def readValues (b : Bytes) (type : Nat) : Nat → Nat → Except Err (List Item × Nat)
  | 0, i => .ok ([], i)
  | k + 1, i =>
    match type with
    | 1 | 2 | 7 => do
      let (v, i2) ← BufferParser.next b i
      let (rest, i3) ← readValues b type k i2
      .ok (.int v :: rest, i3)
    | 3 => do
      let (v, i2) ← BufferParser.readU16 b false i
      let (rest, i3) ← readValues b type k i2
      .ok (.int v :: rest, i3)
    | 4 => do
      let (v, i2) ← BufferParser.readU32 b false i
      let (rest, i3) ← readValues b type k i2
      .ok (.int v :: rest, i3)
    | 5 => do
      let (numerator, i2) ← BufferParser.readU32 b false i
      let (denom, i3) ← BufferParser.readU32 b false i2
      let (rest, i4) ← readValues b type k i3
      .ok (.rat numerator denom :: rest, i4)
    | 9 => do
      let (v, i2) ← BufferParser.readI32 b false i
      let (rest, i3) ← readValues b type k i2
      .ok (.int v :: rest, i3)
    | 10 => do
      let (numerator, i2) ← BufferParser.readI32 b false i
      let (denom, i3) ← BufferParser.readI32 b false i2
      let (rest, i4) ← readValues b type k i3
      .ok (.rat numerator denom :: rest, i4)
    | _ => do
      let (rest, i2) ← readValues b type k i
      .ok (rest, i2)

/-- The `size > 4` path of `readFieldValue`: save the cursor, seek to
`value_or_offset`, read `count` elements, restore the cursor. -/
def readFieldValueSeek (b : Bytes) (i type count vo : Nat) : Except Err (Value × Nat) := do
  let (values, _) ← readValues b type count vo
  .ok (.seq values, i)

/-- `ExifParser.readFieldValue(field)`. The `size ≤ 4` switch has no case for types
5/10, so those (reachable only with `count = 0`) fall through to the seek path.
`case 4` returns the raw u32; `case 9` applies `>>> 0` (`ToUint32`), the identity
on the u32 the header reader produced. -/
def readFieldValue (b : Bytes) (i type count vo : Nat) : Except Err (Value × Nat) := do
  let w ← fieldTypeSize type
  let fieldSize := count * w
  if fieldSize ≤ 4 then
    match type with
    | 1 | 2 | 7 => .ok (byteInline count vo, i)
    | 3 => .ok (shortInline count vo, i)
    | 4 => .ok (.scalar vo, i)
    | 9 => .ok (.scalar (vo % 2 ^ 32), i)
    | _ => readFieldValueSeek b i type count vo
  else readFieldValueSeek b i type count vo

structure Ifd where
  numFields : Nat
  fields : List Field
  nextIfd : Nat
deriving Repr, DecidableEq

/-- The field loop of `readIfd`. -/
def readIfdFields (b : Bytes) : Nat → Nat → Except Err (List Field × Nat)
  | 0, i => .ok ([], i)
  | k + 1, i => do
    let (tag, i1) ← BufferParser.readU16 b false i
    let (type, i2) ← BufferParser.readU16 b false i1
    let (count, i3) ← BufferParser.readU32 b false i2
    let (valueOffset, i4) ← BufferParser.readU32 b false i3
    let (value, i5) ← readFieldValue b i4 type count valueOffset
    let (rest, i6) ← readIfdFields b k i5
    .ok (⟨tag, type, count, valueOffset, value⟩ :: rest, i6)

/-- `ExifParser.readIfd()`. -/
def readIfd (b : Bytes) (i : Nat) : Except Err (Ifd × Nat) := do
  let (numFields, i1) ← BufferParser.readU16 b false i
  let (fields, i2) ← readIfdFields b numFields i1
  let (nextIfd, i3) ← BufferParser.readU32 b false i2
  .ok (⟨numFields, fields, nextIfd⟩, i3)

structure TiffHeader where
  byteOrder : Nat
  fortyTwo : Nat
  ifdOffset : Nat
deriving Repr, DecidableEq

/-- `ExifParser.readTiffHeader()`: the byte-order marker and the magic are read and
returned, but nothing of the cursor's endianness is configured from them. -/
def readTiffHeader (b : Bytes) (i : Nat) : Except Err (TiffHeader × Nat) := do
  let (byteOrder, i1) ← BufferParser.readU16 b false i
  let (fortyTwo, i2) ← BufferParser.readU16 b false i1
  let (ifdOffset, i3) ← BufferParser.readU32 b false i2
  .ok (⟨byteOrder, fortyTwo, ifdOffset⟩, i3)

/-- `ExifParser.parse()`. The EXIF (34665) and GPS (34853) sub-IFD pointers are
followed only when found with a truthy (non-zero) `valueOffset`; the source pushes
the EXIF sub-IFD's fields into the same array it then searches for the GPS tag. -/
def parse (b : Bytes) : Except Err (List Field) := do
  let (header, _) ← readTiffHeader b 0
  let (ifd, _) ← readIfd b header.ifdOffset
  let fields := ifd.fields
  let fields ←
    match fields.find? (fun t => t.tag == 34665) with
    | some f =>
      if f.valueOffset ≠ 0 then do
        let (exifIfd, _) ← readIfd b f.valueOffset
        pure (fields ++ exifIfd.fields)
      else pure fields
    | none => pure fields
  let fields ←
    match fields.find? (fun t => t.tag == 34853) with
    | some f =>
      if f.valueOffset ≠ 0 then do
        let (gpsIfd, _) ← readIfd b f.valueOffset
        pure (fields ++ gpsIfd.fields)
      else pure fields
    | none => pure fields
  .ok fields

end Exif

end FileInspector

/-! ### ZIP reader (the `ZipParser` module)

Constructed with `littleEndian = true`; only the End-of-Central-Directory logic is
needed here, exactly as in `parseEndOfCentralDirectory`. -/

namespace FileInspector

namespace Zip

def END_CENTRAL_DIRECTORY_SIGNATURE : Bytes := [0x50, 0x4b, 0x05, 0x06]

structure EndCentralDirectory where
  disk_num : Nat
  disk_central_dir_num : Nat
  disk_entires : Nat
  total_entires : Nat
  central_dir_size : Nat
  central_dir_offset : Nat
  comment : Span
deriving Repr, DecidableEq

/-- The field reads that follow a located EoCD signature (cursor just past it). -/
def readEnd (b : Bytes) (i : Nat) : Except Err (EndCentralDirectory × Nat) := do
  let (disk_num, i1) ← BufferParser.readU16 b true i
  let (disk_central_dir_num, i2) ← BufferParser.readU16 b true i1
  let (disk_entires, i3) ← BufferParser.readU16 b true i2
  let (total_entires, i4) ← BufferParser.readU16 b true i3
  let (central_dir_size, i5) ← BufferParser.readU32 b true i4
  let (central_dir_offset, i6) ← BufferParser.readU32 b true i5
  let (comment_len, i7) ← BufferParser.readU16 b true i6
  let (comment, i8) ← BufferParser.getSpanE b i7 comment_len
  .ok (⟨disk_num, disk_central_dir_num, disk_entires, total_entires,
        central_dir_size, central_dir_offset, comment⟩, i8)

/-- The reverse scan `for (idx = byteLength - 1; idx > 0; idx -= 1)`: the first
(i.e. highest) index **at least 1** where `consumeIfEquals` matches the EoCD
signature. The argument is the starting index; index 0 is never tried. -/
def scanEoCD (b : Bytes) : Nat → Option Nat
  | 0 => none
  | idx + 1 =>
    if (BufferParser.consumeIfEquals b (idx + 1) END_CENTRAL_DIRECTORY_SIGNATURE).1
    then some (idx + 1)
    else scanEoCD b idx

/-- `ZipParser.parseEndOfCentralDirectory()`. -/
def parseEndOfCentralDirectory (b : Bytes) : Except Err (EndCentralDirectory × Nat) :=
  match scanEoCD b (b.length - 1) with
  | none => .error .missingCentralDirectory
  | some idx => readEnd b (idx + 4)

end Zip

end FileInspector

/-! ### PNG chunk walker (the `PngParser` module of `src/parser/png.ts`)

Its `BufferParser` is constructed without a `littleEndian` flag: every multi-byte
read is big-endian (`le := false`). The `CHUNK_DEFINITIONS` table is keyed here by
the four raw name bytes (the source builds the ASCII string from those same bytes
and indexes a string-keyed object; the two lookups agree). -/

namespace FileInspector

namespace Png

inductive ChunkFieldKind where
  | u8
  | u16
  | u32
  | nullTerminated
  | bufferRest
deriving Repr, DecidableEq

inductive ChunkValue where
  | num (n : Nat)
  | span (s : Span)
deriving Repr, DecidableEq

abbrev ChunkFields := List (String × ChunkValue)

/-- `CHUNK_DEFINITIONS`, keyed by the four chunk-name bytes. -/
def chunkDefinition (n0 n1 n2 n3 : Nat) : Option (List (String × ChunkFieldKind)) :=
  match n0, n1, n2, n3 with
  | 73, 72, 68, 82 => some [("width", .u32), ("height", .u32), ("bit_depth", .u8),
      ("color_type", .u8), ("compression_method", .u8), ("filter_method", .u8),
      ("interlace_method", .u8)]                                             -- IHDR
  | 73, 68, 65, 84 => some [("buffer", .bufferRest)]                         -- IDAT
  | 73, 69, 78, 68 => some []                                                -- IEND
  | 112, 72, 89, 115 => some [("pixels_per_unit_x_axis", .u32),
      ("pixels_per_unit_y_axis", .u32), ("unit_specifier", .u8)]             -- pHYs
  | 99, 72, 82, 77 => some [("white_point_x", .u32), ("white_point_y", .u32),
      ("red_x", .u32), ("red_y", .u32), ("green_x", .u32), ("green_y", .u32),
      ("blue_x", .u32), ("blue_y", .u32)]                                    -- cHRM
  | 105, 67, 67, 80 => some [("profile_name", .nullTerminated),
      ("compression_method", .u8), ("compressed_profile", .bufferRest)]      -- iCCP
  | 122, 84, 88, 116 => some [("keyword", .nullTerminated),
      ("compression_method", .u8), ("compressed_text", .bufferRest)]         -- zTXt
  | 101, 88, 73, 102 => some [("buffer", .bufferRest)]                       -- eXIf
  | 116, 69, 88, 116 => some [("keyword", .nullTerminated),
      ("text", .bufferRest)]                                                 -- tEXt
  | 111, 82, 78, 84 => some [("orientation", .u8)]                           -- oRNT
  | 116, 73, 77, 69 => some [("year", .u16), ("month", .u8), ("day", .u8),
      ("hour", .u8), ("minute", .u8), ("second", .u8)]                       -- tIME
  | 103, 65, 77, 65 => some [("gamma", .u32)]                                -- gAMA
  | 115, 82, 71, 66 => some [("rendering_intent", .u8)]                      -- sRGB
  | _, _, _, _ => none

/-- `PngParser.parseFieldKind(kind, chunkEnd)`. -/
def parseFieldKind (b : Bytes) (chunkEnd : Nat) (i : Nat) :
    ChunkFieldKind → Except Err (ChunkValue × Nat)
  | .u8 => do
    let (v, j) ← BufferParser.next b i
    .ok (.num v, j)
  | .u16 => do
    let (v, j) ← BufferParser.readU16 b false i
    .ok (.num v, j)
  | .u32 => do
    let (v, j) ← BufferParser.readU32 b false i
    .ok (.num v, j)
  | .nullTerminated => do
    let (s, j) ← BufferParser.readNullTerminatedString b i
    .ok (.span s, j)
  | .bufferRest => do
    let (s, j) ← BufferParser.getSpanToE b i chunkEnd
    .ok (.span s, j)

/-- `PngParser.parseChunkDefinition(definition, chunkEnd)`: one field per schema
entry, in schema order. -/
def parseChunkDefinition (b : Bytes) (chunkEnd : Nat) :
    Nat → List (String × ChunkFieldKind) → Except Err (ChunkFields × Nat)
  | i, [] => .ok ([], i)
  | i, (fieldName, kind) :: rest => do
    let (v, j) ← parseFieldKind b chunkEnd i kind
    let (vs, j2) ← parseChunkDefinition b chunkEnd j rest
    .ok ((fieldName, v) :: vs, j2)

/-- `PngParser.readChunkName()`: four `next()` calls. -/
def readChunkName (b : Bytes) (i : Nat) : Except Err ((Nat × Nat × Nat × Nat) × Nat) := do
  let (n0, i1) ← BufferParser.next b i
  let (n1, i2) ← BufferParser.next b i1
  let (n2, i3) ← BufferParser.next b i2
  let (n3, i4) ← BufferParser.next b i3
  .ok ((n0, n1, n2, n3), i4)

structure Chunk where
  name : Nat × Nat × Nat × Nat
  rawData : Span
  crc : Nat
  parsedData : Option ChunkFields
deriving Repr, DecidableEq

/-- `PngParser.parseChunk()`: length, name, optional schema walk (after which the
cursor is reset to the data start), raw-data span, CRC. -/
def parseChunk (b : Bytes) (i : Nat) : Except Err (Chunk × Nat) := do
  let (length, i1) ← BufferParser.readU32 b false i
  let (name, i2) ← readChunkName b i1
  let dataStart := i2
  let parsedData ←
    match chunkDefinition name.1 name.2.1 name.2.2.1 name.2.2.2 with
    | none => pure (none : Option ChunkFields)
    | some defn => do
      let (fields, _) ← parseChunkDefinition b (dataStart + length) dataStart defn
      pure (some fields)
  let (rawData, i3) ← BufferParser.getSpanE b dataStart length
  let (crc, i4) ← BufferParser.readU32 b false i3
  .ok (⟨name, rawData, crc, parsedData⟩, i4)

structure PngFile where
  header : Span
  chunks : List Chunk
deriving Repr, DecidableEq

/-- The `while (!atEnd())` chunk loop. Every iteration of the source advances the
cursor by at least 12 bytes or throws, so `b.length + 1` fuel never runs out. -/
def parseChunks (b : Bytes) : Nat → Nat → Except Err (List Chunk)
  | _, 0 => .error .fuel
  | i, fuelLeft + 1 =>
    if b.length == i then .ok []
    else do
      let (c, j) ← parseChunk b i
      let rest ← parseChunks b j fuelLeft
      .ok (c :: rest)

/-- `PngParser.parse()`: an 8-byte header span (recorded, never compared against
the PNG signature), then chunks until the end of the buffer. -/
def parse (b : Bytes) : Except Err PngFile := do
  let (header, i) ← BufferParser.getSpanE b 0 8
  let chunks ← parseChunks b i (b.length + 1)
  .ok ⟨header, chunks⟩

end Png

end FileInspector

/-! ### GIF reader and LZW decoder (the `GifParser` / `GifImageDecoder` module of
`src/parser/gif.ts`)

The parser's `BufferParser` is constructed with `littleEndian = true`. All loops
(`parse`'s image loop, the extension loop, `parseSubBlocks`, and the decoder's
code loop) advance their cursor every iteration or throw, so the supplied fuel
(`b.length + 1` bytes, `8 * data.length + 2` codes) never runs out. -/

namespace FileInspector

namespace Gif

structure ColorTable where
  span : Span
  colors : List (Nat × Nat × Nat)
deriving Repr, DecidableEq

structure LogicalScreenDescriptor where
  width : Nat
  height : Nat
  descriptor : Nat
  background_color_index : Nat
  pixel_aspect_ratio : Nat
  span : Span
  hasGlobalColorTable : Bool
  sorted : Bool
  globalColorTableSize : Nat
  colorResolution : Nat
deriving Repr, DecidableEq

structure ImageDescriptor where
  magic : Nat
  left : Nat
  top : Nat
  width : Nat
  height : Nat
  bitflags : Nat
  interlaced : Bool
  sorted : Bool
  reserved : Nat
  hasLocalColorTable : Bool
  localColorTableSize : Nat
  span : Span
deriving Repr, DecidableEq

inductive Extension where
  | application (netscape version : Span)
      (length index numExecutions terminator : Nat) (span : Span)
  | graphics (byteSize bitFlags delayTime transparentColorIndex blockTerminator : Nat)
      (span : Span)
  | comment (data : Bytes) (span : Span)
  | plain (numBytesToSkip : Nat) (skippedBytes : Span) (data : Bytes) (span : Span)
deriving Repr, DecidableEq

structure Image where
  extensions : List Extension
  descriptor : ImageDescriptor
  localColorTable : Option ColorTable
  minCodeSize : Nat
  data : Bytes
  span : Span
deriving Repr, DecidableEq

structure GifFile where
  header : Span
  logicalScreenDescriptor : LogicalScreenDescriptor
  globalColorTable : Option ColorTable
  images : List Image
deriving Repr, DecidableEq

/-- `parseColorTableFromBytes(buffer)` reads triples `(i, i+1, i+2)` stepping by 3
after checking divisibility by 3; the catch-all is unreachable after the check. -/
def colorTriples : Bytes → List (Nat × Nat × Nat)
  | r :: g :: b2 :: rest => (r, g, b2) :: colorTriples rest
  | _ => []

/-- `parseColorTableFromBytes(buffer)`. -/
def parseColorTableFromBytes (bytes : Bytes) : Except Err (List (Nat × Nat × Nat)) :=
  if bytes.length % 3 ≠ 0 then .error (.invalidColorTableLength bytes.length)
  else .ok (colorTriples bytes)

/-- `GifParser.parseLogicalScreenDescriptor()` together with the derived bitfields
computed in the `LogicalScreenDescriptor` constructor. -/
def parseLogicalScreenDescriptor (b : Bytes) (i : Nat) :
    Except Err (LogicalScreenDescriptor × Nat) := do
  let (width, i1) ← BufferParser.readU16 b true i
  let (height, i2) ← BufferParser.readU16 b true i1
  let (descriptor, i3) ← BufferParser.next b i2
  let (background_color_index, i4) ← BufferParser.next b i3
  let (pixel_aspect_ratio, i5) ← BufferParser.next b i4
  .ok (⟨width, height, descriptor, background_color_index, pixel_aspect_ratio,
        ⟨i, i5⟩,
        (descriptor >>> 7) == 1,
        ((descriptor >>> 3) &&& 1) == 1,
        descriptor &&& 7,
        (descriptor >>> 4) &&& 7⟩, i5)

/-- `GifParser.parseGlobalColorTable(descriptor)`:
`3 * 2^(globalColorTableSize + 1)` bytes when the flag is set. -/
def parseGlobalColorTable (b : Bytes) (i : Nat) (lsd : LogicalScreenDescriptor) :
    Except Err (Option ColorTable × Nat) :=
  if !lsd.hasGlobalColorTable then .ok (none, i)
  else do
    let (span, i1) ← BufferParser.getSpanE b i (3 * 2 ^ (lsd.globalColorTableSize + 1))
    let colors ← parseColorTableFromBytes (BufferParser.bytesForSpan b span)
    .ok (some ⟨span, colors⟩, i1)

/-- `GifParser.parseImageDescriptor()` with its derived bitfields. -/
def parseImageDescriptor (b : Bytes) (i : Nat) : Except Err (ImageDescriptor × Nat) := do
  let (magic, i1) ← BufferParser.next b i
  let (left, i2) ← BufferParser.readU16 b true i1
  let (top, i3) ← BufferParser.readU16 b true i2
  let (width, i4) ← BufferParser.readU16 b true i3
  let (height, i5) ← BufferParser.readU16 b true i4
  let (bitflags, i6) ← BufferParser.next b i5
  .ok (⟨magic, left, top, width, height, bitflags,
        ((bitflags >>> 6) &&& 1) == 1,
        ((bitflags >>> 5) &&& 1) == 1,
        (bitflags >>> 3) &&& 3,
        (bitflags >>> 7) == 1,
        bitflags &&& 7,
        ⟨i, i6⟩⟩, i6)

/-- `GifParser.parseSubBlocks()`: length-prefixed blocks until a zero length byte,
concatenated (`mergeAllUint8Arrays`). -/
def parseSubBlocks (b : Bytes) : Nat → Nat → Except Err (Bytes × Nat)
  | _, 0 => .error .fuel
  | i, fuelLeft + 1 => do
    let p ← BufferParser.peek b i
    if p == some 0 then do
      let (_, i1) ← BufferParser.next b i
      .ok ([], i1)
    else do
      let (len, i1) ← BufferParser.next b i
      let (sp, i2) ← BufferParser.getSpanE b i1 len
      let (rest, i3) ← parseSubBlocks b i2 fuelLeft
      .ok (BufferParser.bytesForSpan b sp ++ rest, i3)

/-- `GifParser.parsePlainTextExtension(start)`. -/
def parsePlainTextExtension (b : Bytes) (start i : Nat) : Except Err (Extension × Nat) := do
  let (numBytesToSkip, i1) ← BufferParser.next b i
  let (skippedBytes, i2) ← BufferParser.getSpanE b i1 numBytesToSkip
  let (data, i3) ← parseSubBlocks b i2 (b.length + 1)
  .ok (.plain numBytesToSkip skippedBytes data ⟨start, i3⟩, i3)

/-- `GifParser.parseApplicationExtension(start)`: spans of `"NETSCAPE".length = 8`
and `"2.0".length = 3` bytes, then four numeric fields. -/
def parseApplicationExtension (b : Bytes) (start i : Nat) : Except Err (Extension × Nat) := do
  let (netscape, i1) ← BufferParser.getSpanE b i 8
  let (version, i2) ← BufferParser.getSpanE b i1 3
  let (length, i3) ← BufferParser.next b i2
  let (index, i4) ← BufferParser.next b i3
  let (numExecutions, i5) ← BufferParser.readU16 b true i4
  let (terminator, i6) ← BufferParser.readU16 b true i5
  .ok (.application netscape version length index numExecutions terminator ⟨start, i6⟩, i6)

/-- `GifParser.parseCommentExtension(start)`. -/
def parseCommentExtension (b : Bytes) (start i : Nat) : Except Err (Extension × Nat) := do
  let (data, i1) ← parseSubBlocks b i (b.length + 1)
  .ok (.comment data ⟨start, i1⟩, i1)

/-- `GifParser.parseGce(start)`. -/
def parseGce (b : Bytes) (start i : Nat) : Except Err (Extension × Nat) := do
  let (byteSize, i1) ← BufferParser.next b i
  let (bitFlags, i2) ← BufferParser.next b i1
  let (delayTime, i3) ← BufferParser.readU16 b true i2
  let (transparentColorIndex, i4) ← BufferParser.next b i3
  let (blockTerminator, i5) ← BufferParser.next b i4
  .ok (.graphics byteSize bitFlags delayTime transparentColorIndex blockTerminator
        ⟨start, i5⟩, i5)

/-- `GifParser.parseExtension()`: skip the introducer, dispatch on the label byte
(the source's switch, rendered as the equivalent chain of equality tests). -/
def parseExtension (b : Bytes) (i : Nat) : Except Err (Extension × Nat) := do
  let (_, i1) ← BufferParser.next b i
  let start := i1
  let (label, i2) ← BufferParser.next b i1
  if label = 0x01 then parsePlainTextExtension b start i2
  else if label = 0xf9 then parseGce b start i2
  else if label = 0xff then parseApplicationExtension b start i2
  else if label = 0xfe then parseCommentExtension b start i2
  else .error .unexpectedExtension

/-- The `while (peek() === ExtensionIntroducer)` loop of `parse`. -/
def parseExtensions (b : Bytes) : Nat → Nat → Except Err (List Extension × Nat)
  | _, 0 => .error .fuel
  | i, fuelLeft + 1 => do
    let p ← BufferParser.peek b i
    if p == some 0x21 then do
      let (e, i1) ← parseExtension b i
      let (rest, i2) ← parseExtensions b i1 fuelLeft
      .ok (e :: rest, i2)
    else .ok ([], i)

/-- The `while (peek() !== Trailer)` image loop of `parse`. -/
def parseImages (b : Bytes) : Nat → Nat → Except Err (List Image × Nat)
  | _, 0 => .error .fuel
  | i, fuelLeft + 1 => do
    let p ← BufferParser.peek b i
    if p == some 0x3b then .ok ([], i)
    else do
      let (extensions, i1) ← parseExtensions b i (b.length + 1)
      let (descriptor, i2) ← parseImageDescriptor b i1
      let (localColorTable, i3) ←
        if descriptor.hasLocalColorTable then do
          let (sp, j) ← BufferParser.getSpanE b i2
            (3 * 2 ^ (descriptor.localColorTableSize + 1))
          let colors ← parseColorTableFromBytes (BufferParser.bytesForSpan b sp)
          pure (some (⟨sp, colors⟩ : ColorTable), j)
        else pure (none, i2)
      let imageStart := i3
      let (minCodeSize, i4) ← BufferParser.next b i3
      let (data, i5) ← parseSubBlocks b i4 (b.length + 1)
      let (rest, i6) ← parseImages b i5 fuelLeft
      .ok (⟨extensions, descriptor, localColorTable, minCodeSize, data,
            ⟨imageStart, i5⟩⟩ :: rest, i6)

/-- `GifParser.parse()`: a 6-byte header span (recorded, never compared against
`GIF87a`/`GIF89a`), the LSD, the optional global color table, the image loop,
the trailer byte, and the trailing-byte check. -/
def parse (b : Bytes) : Except Err GifFile := do
  let (header, i) ← BufferParser.getSpanE b 0 6
  let (logicalScreenDescriptor, i1) ← parseLogicalScreenDescriptor b i
  let (globalColorTable, i2) ← parseGlobalColorTable b i1 logicalScreenDescriptor
  let (images, i3) ← parseImages b i2 (b.length + 1)
  let (_, i4) ← BufferParser.next b i3
  if b.length == i4 then .ok ⟨header, logicalScreenDescriptor, globalColorTable, images⟩
  else .error .unexpectedTrailerByte

/-- The table re-initialization of the decoder's clear branch:
`codeTable[i] = [i]` for `0 ≤ i ≤ endCode`. -/
def initTable (endCode : Nat) : List (List Nat) :=
  (List.range (endCode + 1)).map (fun k => [k])

/-- `codeTable[idx]`, erroring where JavaScript would produce `undefined` and
crash on the subsequent spread (negative or out-of-range index). -/
def tableGet (t : List (List Nat)) (idx : Int) : Except Err (List Nat) :=
  if idx < 0 then .error .oob
  else
    match t.get? idx.toNat with
    | some e => .ok e
    | none => .error .oob

/-- `entry[0]`, erroring where JavaScript would produce `undefined` (never hit:
table entries are nonempty). -/
def headVal : List Nat → Except Err Nat
  | [] => .error .oob
  | x :: _ => .ok x

/-- The `while (code !== endCode)` loop of `GifImageDecoder.decode`. State:
cursor, current width, code table, output stream, previous code (`-1` until the
first clear), current code. -/
def decodeGo (data : Bytes) (origWidth clearCode endCode : Nat) :
    Nat → Nat → Nat → List (List Nat) → List Nat → Int → Nat →
    Except Err (List Nat × Nat)
  | 0, _, _, _, _, _, _ => .error .fuel
  | fuelLeft + 1, cur, width, table, stream, prev, code =>
    if code == endCode then .ok (stream, cur)
    else if code == clearCode then do
      let table1 := initTable endCode
      let width1 := origWidth
      let (firstCode, cur1) ← BitParser.readNBits data cur (min width1 12)
      let (code2, cur2) ← BitParser.readNBits data cur1 (min width1 12)
      decodeGo data origWidth clearCode endCode fuelLeft cur2 width1 table1
        (stream ++ [firstCode]) (Int.ofNat firstCode) code2
    else do
      let (table2, stream2) ←
        if code < table.length then do
          let entry ← tableGet table (Int.ofNat code)
          let k ← headVal entry
          let prevEntry ← tableGet table prev
          pure (table ++ [prevEntry ++ [k]], stream ++ entry)
        else do
          let prevEntry ← tableGet table prev
          let k ← headVal prevEntry
          pure (table ++ [prevEntry ++ [k]], stream ++ (prevEntry ++ [k]))
      let width2 := if table2.length == 2 ^ width then width + 1 else width
      let (code3, cur3) ← BitParser.readNBits data cur (min width2 12)
      decodeGo data origWidth clearCode endCode fuelLeft cur3 width2 table2 stream2
        (Int.ofNat code) code3

/-- `GifImageDecoder.decode()`: empty result without a global color table or for
empty data; otherwise the **first code read from the stream** becomes the clear
code and its successor the end code, the loop runs until the end code, and the
remaining bits must all be zero (`atEnd`). -/
def decode (hasGlobalColorTable : Bool) (minCodeSize : Nat) (data : Bytes) :
    Except Err (List Nat) :=
  if !hasGlobalColorTable then .ok []
  else if data.length == 0 then .ok []
  else do
    let width := minCodeSize + 1
    let (clearCode, cur) ← BitParser.readNBits data 0 (min width 12)
    let endCode := clearCode + 1
    let (stream, cur1) ← decodeGo data width clearCode endCode
      (8 * data.length + 2) cur width [] [] (-1) clearCode
    let (allZero, _) ← BitParser.atEnd data cur1
    if allZero then .ok stream else .error .endCodeNotAtEnd

end Gif

end FileInspector

/-! ### BMP reader (the `BmpParser` module of `src/parse/bmp.ts`)

Constructed with `littleEndian = true`. -/

namespace FileInspector

namespace Bmp

structure BmpHeader where
  signature : Span
  file_size : Nat
  reserved : Nat
  data_offset : Nat
  span : Span
deriving Repr, DecidableEq

structure BmpInfoHeader where
  info_header_size : Nat
  width : Nat
  height : Nat
  planes : Nat
  bits_per_pixel : Nat
  compression_method : Nat
  compressed_image_size : Nat
  x_pixels_per_m : Nat
  y_pixels_per_m : Nat
  colors_used : Nat
  important_colors : Nat
  span : Span
deriving Repr, DecidableEq

structure BmpV5Header where
  info_header_size : Nat
  width : Nat
  height : Nat
  planes : Nat
  bits_per_pixel : Nat
  compression_method : Nat
  compressed_image_size : Nat
  x_pixels_per_m : Nat
  y_pixels_per_m : Nat
  colors_used : Nat
  important_colors : Nat
  red_mask : Nat
  green_mask : Nat
  blue_mask : Nat
  alpha_mask : Nat
  color_space : Span
  endpoints : List (List Nat)
  gamma_red : Nat
  gamma_green : Nat
  gamma_blue : Nat
  rendering_intent : Nat
  profile_data : Nat
  profile_size : Nat
  reserved : Nat
  span : Span
deriving Repr, DecidableEq

inductive Dib where
  | info (h : BmpInfoHeader)
  | v5 (h : BmpV5Header)
deriving Repr, DecidableEq

/-- `dib.bits_per_pixel`, available on either header shape. -/
def Dib.bits_per_pixel : Dib → Nat
  | .info h => h.bits_per_pixel
  | .v5 h => h.bits_per_pixel

/-- `dib.colors_used`, available on either header shape. -/
def Dib.colors_used : Dib → Nat
  | .info h => h.colors_used
  | .v5 h => h.colors_used

structure BmpColorTable where
  span : Span
  colors : List (Nat × Nat × Nat × Nat)
deriving Repr, DecidableEq

structure BmpFile where
  header : BmpHeader
  dib : Dib
  color_table : Option BmpColorTable
  pixels : Span
deriving Repr, DecidableEq

/-- `BmpParser.parseHeader()`: a 2-byte signature span (recorded, never compared
against `BM`), then three little-endian u32s. -/
def parseHeader (b : Bytes) (i : Nat) : Except Err (BmpHeader × Nat) := do
  let (signature, i1) ← BufferParser.getSpanE b i 2
  let (file_size, i2) ← BufferParser.readU32 b true i1
  let (reserved, i3) ← BufferParser.readU32 b true i2
  let (data_offset, i4) ← BufferParser.readU32 b true i3
  .ok (⟨signature, file_size, reserved, data_offset, ⟨i, i4⟩⟩, i4)

/-- `BmpParser.parseInfoHeader(start, info_header_size)`. -/
def parseInfoHeader (b : Bytes) (start i : Nat) (info_header_size : Nat) :
    Except Err (Dib × Nat) := do
  let (width, i1) ← BufferParser.readU32 b true i
  let (height, i2) ← BufferParser.readU32 b true i1
  let (planes, i3) ← BufferParser.readU16 b true i2
  let (bits_per_pixel, i4) ← BufferParser.readU16 b true i3
  let (compression_method, i5) ← BufferParser.readU32 b true i4
  let (compressed_image_size, i6) ← BufferParser.readU32 b true i5
  let (x_pixels_per_m, i7) ← BufferParser.readU32 b true i6
  let (y_pixels_per_m, i8) ← BufferParser.readU32 b true i7
  let (colors_used, i9) ← BufferParser.readU32 b true i8
  let (important_colors, i10) ← BufferParser.readU32 b true i9
  .ok (.info ⟨info_header_size, width, height, planes, bits_per_pixel,
        compression_method, compressed_image_size, x_pixels_per_m, y_pixels_per_m,
        colors_used, important_colors, ⟨start, i10⟩⟩, i10)

/-- `BmpParser.parseV5Header(start, info_header_size)`. -/
def parseV5Header (b : Bytes) (start i : Nat) (info_header_size : Nat) :
    Except Err (Dib × Nat) := do
  let (width, i1) ← BufferParser.readU32 b true i
  let (height, i2) ← BufferParser.readU32 b true i1
  let (planes, i3) ← BufferParser.readU16 b true i2
  let (bits_per_pixel, i4) ← BufferParser.readU16 b true i3
  let (compression_method, i5) ← BufferParser.readU32 b true i4
  let (compressed_image_size, i6) ← BufferParser.readU32 b true i5
  let (x_pixels_per_m, i7) ← BufferParser.readU32 b true i6
  let (y_pixels_per_m, i8) ← BufferParser.readU32 b true i7
  let (colors_used, i9) ← BufferParser.readU32 b true i8
  let (important_colors, i10) ← BufferParser.readU32 b true i9
  let (red_mask, i11) ← BufferParser.readU32 b true i10
  let (green_mask, i12) ← BufferParser.readU32 b true i11
  let (blue_mask, i13) ← BufferParser.readU32 b true i12
  let (alpha_mask, i14) ← BufferParser.readU32 b true i13
  let (color_space, i15) ← BufferParser.getSpanE b i14 4
  let (e00, i16) ← BufferParser.readU32 b true i15
  let (e01, i17) ← BufferParser.readU32 b true i16
  let (e02, i18) ← BufferParser.readU32 b true i17
  let (e10, i19) ← BufferParser.readU32 b true i18
  let (e11, i20) ← BufferParser.readU32 b true i19
  let (e12, i21) ← BufferParser.readU32 b true i20
  let (e20, i22) ← BufferParser.readU32 b true i21
  let (e21, i23) ← BufferParser.readU32 b true i22
  let (e22, i24) ← BufferParser.readU32 b true i23
  let (gamma_red, i25) ← BufferParser.readU32 b true i24
  let (gamma_green, i26) ← BufferParser.readU32 b true i25
  let (gamma_blue, i27) ← BufferParser.readU32 b true i26
  let (rendering_intent, i28) ← BufferParser.readU32 b true i27
  let (profile_data, i29) ← BufferParser.readU32 b true i28
  let (profile_size, i30) ← BufferParser.readU32 b true i29
  let (reserved, i31) ← BufferParser.readU32 b true i30
  .ok (.v5 ⟨info_header_size, width, height, planes, bits_per_pixel,
        compression_method, compressed_image_size, x_pixels_per_m, y_pixels_per_m,
        colors_used, important_colors, red_mask, green_mask, blue_mask, alpha_mask,
        color_space, [[e00, e01, e02], [e10, e11, e12], [e20, e21, e22]],
        gamma_red, gamma_green, gamma_blue, rendering_intent, profile_data,
        profile_size, reserved, ⟨start, i31⟩⟩, i31)

/-- `BmpParser.parseDibHeader()`: dispatch on the leading u32; any size other
than 124 takes the 40-byte info-header path. -/
def parseDibHeader (b : Bytes) (i : Nat) : Except Err (Dib × Nat) := do
  let start := i
  let (info_header_size, i1) ← BufferParser.readU32 b true i
  if info_header_size = 124 then parseV5Header b start i1 info_header_size
  else parseInfoHeader b start i1 info_header_size

/-- The BGRA reorder loop of `parseColorTable`: entry `(b[i+2], b[i+1], b[i], b[i+3])`
per 4 bytes; the catch-all is unreachable after the divisibility check. -/
def colorQuads : Bytes → List (Nat × Nat × Nat × Nat)
  | b0 :: b1 :: b2 :: b3 :: rest => (b2, b1, b0, b3) :: colorQuads rest
  | _ => []

/-- `BmpParser.parseColorTable(len)`. -/
def parseColorTable (b : Bytes) (i : Nat) (len : Nat) :
    Except Err (BmpColorTable × Nat) := do
  let (span, i1) ← BufferParser.getSpanE b i len
  let bytes := BufferParser.bytesForSpan b span
  if bytes.length % 4 ≠ 0 then .error (.invalidColorTableLength bytes.length)
  else .ok (⟨span, colorQuads bytes⟩, i1)

/-- Modelled from the spec: `BufferParser.getSpanToEnd()`, called by
`BmpParser.parse`, is absent from the provided sources (`src/parse/buffer.ts`
has no such method). Spec §4.8: seek the cursor to `data_offset`; the pixel
data span runs from there to the end of the buffer. -/
def getSpanToEnd (b : Bytes) (i : Nat) : Except Err (Span × Nat) :=
  .ok (⟨i, b.length⟩, b.length)

/-- `BmpParser.parse()`: header, DIB header, a palette iff `bits_per_pixel ∈ {4, 8}`
(of `colors_used * 4` bytes), then the pixel span from `data_offset`. -/
def parse (b : Bytes) : Except Err BmpFile := do
  let (header, i) ← parseHeader b 0
  let (dib, i1) ← parseDibHeader b i
  let (color_table, _) ←
    if dib.bits_per_pixel == 4 || dib.bits_per_pixel == 8 then do
      let (ct, j) ← parseColorTable b i1 (dib.colors_used * 4)
      pure (some ct, j)
    else pure ((none : Option BmpColorTable), i1)
  let (pixels, _) ← getSpanToEnd b header.data_offset
  .ok ⟨header, dib, color_table, pixels⟩

end Bmp

end FileInspector

/-! ### Definitions supporting the claim statements -/

deriving instance DecidableEq for Except

namespace FileInspector

/-- The pure inline decoding of `readFieldValue`'s `size ≤ 4` branch, as a function
of the field type, count and `value_or_offset` alone. Types 5/10 reach the branch
only with `count = 0` and fall through to a seek that reads nothing, producing an
empty sequence. -/
def Exif.inlineFieldValue (type count vo : Nat) : Exif.Value :=
  match type with
  | 1 | 2 | 7 => Exif.byteInline count vo
  | 3 => Exif.shortInline count vo
  | 4 => .scalar vo
  | 9 => .scalar (vo % 2 ^ 32)
  | _ => .seq []

/-- Translate a chunk value by `s` bytes (spans shift, numbers do not). -/
def Png.shiftValue (s : Nat) : Png.ChunkValue → Png.ChunkValue
  | .num n => .num n
  | .span sp => .span ⟨s + sp.start, s + sp.stop⟩

/-- Translate every field value of a schema walk by `s` bytes. -/
def Png.shiftFields (s : Nat) (f : Png.ChunkFields) : Png.ChunkFields :=
  f.map (fun p => (p.1, Png.shiftValue s p.2))

/-- The re-parse described by the spec's round-trip property: run the chunk's
schema over `bytes_for_span(raw_data)` with a fresh cursor starting at index 0
(so the chunk end is the slice's length). -/
def Png.reparseChunkFields (b : Bytes) (c : Png.Chunk)
    (defn : List (String × Png.ChunkFieldKind)) : Except Err (Png.ChunkFields × Nat) :=
  Png.parseChunkDefinition (BufferParser.bytesForSpan b c.rawData)
    (c.rawData.stop - c.rawData.start) 0 defn

/-- Two buffers of equal length whose bytes agree at every index `≥ k`. -/
def AgreeFrom (k : Nat) (b1 b2 : Bytes) : Prop :=
  b1.length = b2.length ∧ ∀ i, i < b1.length → k ≤ i → b1.get? i = b2.get? i

instance (k : Nat) (b1 b2 : Bytes) : Decidable (AgreeFrom k b1 b2) :=
  inferInstanceAs (Decidable (_ ∧ _))

/-- Bit `j` of a bit stream, LSB-first within each byte (out-of-range bytes read
as zero; used only to state which bits `BitParser.atEnd` consumed). -/
def BitParser.bitAt (b : Bytes) (j : Nat) : Nat :=
  (b.getD (j / 8) 0 >>> (j % 8)) &&& 1

/-- A big-endian TIFF/EXIF buffer: `MM`, 42, IFD at offset 8 with the single field
`{tag 274, type 3 (SHORT), count 1, value_offset 0x00060000}`. -/
def exifMM : Bytes :=
  [0x4D, 0x4D, 0x00, 0x2A, 0, 0, 0, 8,
   0, 1, 0x01, 0x12, 0, 3, 0, 0, 0, 1, 0, 6, 0, 0, 0, 0, 0, 0]

/-- The little-endian encoding (marker `II`) of exactly the same logical content
as `exifMM`. -/
def exifII : Bytes :=
  [0x49, 0x49, 0x2A, 0x00, 8, 0, 0, 0,
   1, 0, 0x12, 0x01, 3, 0, 1, 0, 0, 0, 0, 0, 6, 0, 0, 0, 0, 0]

/-- Twenty zero bytes: no PNG signature, followed by one well-formed zero-length
chunk with an unknown name. -/
def pngNoMagic : Bytes := List.replicate 20 0

/-- The same chunk data as `pngNoMagic` but with the real PNG signature. -/
def pngWithMagic : Bytes := [137, 80, 78, 71, 13, 10, 26, 10] ++ List.replicate 12 0

/-- Fourteen bytes: a zeroed (non-`GIF87a`) header, a zeroed logical screen
descriptor (no global color table), no images, the trailer `0x3B`. -/
def gifNoMagic : Bytes := List.replicate 13 0 ++ [0x3b]

/-- The same GIF body as `gifNoMagic` but with a real `GIF87a` header. -/
def gifWithMagic : Bytes := [71, 73, 70, 56, 55, 97] ++ List.replicate 7 0 ++ [0x3b]

/-- A 54-byte BMP with a zeroed (non-`BM`) signature, `data_offset = 54`, and a
40-byte info header with `bits_per_pixel = 0`. -/
def bmpNoMagic : Bytes :=
  [0, 0, 0, 0, 0, 0, 0, 0, 0, 0, 54, 0, 0, 0, 40, 0, 0, 0] ++ List.replicate 36 0

/-- The same BMP body as `bmpNoMagic` but with the real `BM` signature. -/
def bmpWithMagic : Bytes :=
  [66, 77, 0, 0, 0, 0, 0, 0, 0, 0, 54, 0, 0, 0, 40, 0, 0, 0] ++ List.replicate 36 0

/-- A PNG containing one `tEXt` chunk whose data is `"ab\0xyz"` (keyword `ab`,
text `xyz`), used for the chunk re-parse round-trip. -/
def pngText : Bytes :=
  [137, 80, 78, 71, 13, 10, 26, 10, 0, 0, 0, 6, 116, 69, 88, 116,
   97, 98, 0, 120, 121, 122, 0, 0, 0, 0]

/-- The `tEXt` schema. -/
def tEXtDefinition : List (String × Png.ChunkFieldKind) :=
  [("keyword", .nullTerminated), ("text", .bufferRest)]

/-- The minimal 22-byte ZIP archive: the End-of-Central-Directory record alone,
its signature at offset 0. -/
def zipMinimal : Bytes :=
  Zip.END_CENTRAL_DIRECTORY_SIGNATURE ++ List.replicate 18 0

/-- A 23-byte archive: one padding byte, then the spec's sample EoCD record
(`total_entries = 1`, `cd_size = 59`, `cd_offset = 160`, empty comment); the
signature sits at offset 1. -/
def zipSample : Bytes :=
  [0, 0x50, 0x4B, 0x05, 0x06, 0, 0, 0, 0, 1, 0, 1, 0,
   0x3B, 0, 0, 0, 0xA0, 0, 0, 0, 0, 0]

end FileInspector

/-! ### Claim theorems -/

namespace FileInspector

/-- Helper: `fieldTypeSize` succeeds exactly for the eight EXIF types, with the
widths of the source's switch. -/
theorem fieldTypeSize_cases (t w : Nat) (h : Exif.fieldTypeSize t = .ok w) :
    (t = 1 ∨ t = 2 ∨ t = 7) ∧ w = 1 ∨ t = 3 ∧ w = 2 ∨
    (t = 4 ∨ t = 9) ∧ w = 4 ∨ (t = 5 ∨ t = 10) ∧ w = 8 := by
  unfold Exif.fieldTypeSize at h
  split at h <;> simp_all

/-- C1: the spec (and the claim) say `parse_exif` configures its cursor endianness
from the TIFF byte-order marker, so the `II` and `MM` encodings of the same
logical content parse identically. The code reads the marker but never configures
anything: every multi-byte read stays big-endian. On the `MM` encoding of one
SHORT Orientation field the parse succeeds with value 6; on the `II` encoding of
the same logical content the big-endian misread of the IFD offset
(`08 00 00 00` read as 2^27) sends the cursor out of the buffer and the parse
throws, so the two encodings do not parse to the same record. -/
theorem C1_byte_order_marker_ignored :
    Exif.parse exifMM = .ok [⟨274, 3, 1, 0x00060000, .scalar 6⟩] ∧
    Exif.parse exifII = .error .oob := ⟨rfl, rfl⟩

/-- C4 counterexample: the claim's concrete scenario says `decode_gif_image` with
`min_code_size = 2` over the bytes `04 01 06 00` yields `[0, 1, 2, 3]`. On the
code it does not: that bit stream makes the decoder re-enter its clear branch
repeatedly and run off the end of the stream, throwing the bit parser's
out-of-bounds error. -/
theorem C4_counterexample :
    Gif.decode true 2 [0x04, 0x01, 0x06, 0x00] = .error .bitOOB ∧
    Gif.decode true 2 [0x04, 0x01, 0x06, 0x00] ≠ .ok [0, 1, 2, 3] := by
  exact ⟨rfl, by decide⟩

/-- C4 amended: the decoder does not compute `1 << min_code_size`; it reads the
first code of the stream and uses **that** as the clear code, with end code one
greater, stopping when the end code is read. For a conforming stream whose first
code is `1 << m` the two descriptions agree, and the `m = 2` round-trip example
producing `[0, 1, 2, 3]` is the byte stream `44 34 05` (codes 4, 0, 1, 2, 3, 5 at
widths 3, 3, 3, 3, 4, 4). A stream whose first 3-bit code is 6 is decoded with
clear code 6 and end code 7 (here: codes 6, 0, 7 giving `[0]`), not rejected for
its first code differing from `1 << m = 4`. -/
theorem C4_first_code_is_clear_code :
    Gif.decode true 2 [0x44, 0x34, 0x05] = .ok [0, 1, 2, 3] ∧
    Gif.decode true 2 [0xC6, 0x01] = .ok [0] := ⟨rfl, rfl⟩

/-- C5 counterexample: the claim says BYTE/ASCII/UNDEFINED inline fields take
`count` bytes, and SHORT takes the top 16 bits. A BYTE field with `count = 0`
(inline, since `0 × 1 ≤ 4`) decodes to **all four** bytes of `value_or_offset`,
not zero bytes; and because the source extracts with the JavaScript signed `>>`,
a SHORT with the top bit of `value_or_offset` set decodes to a negative
sign-extended value (−32762), not to the top 16 bits 0x8006 = 32774. -/
theorem C5_counterexample :
    Exif.readFieldValue [] 0 1 0 0x01020304 =
      .ok (.seq [.int 1, .int 2, .int 3, .int 4], 0) ∧
    Exif.readFieldValue [] 0 1 0 0x01020304 ≠ .ok (.seq [], 0) ∧
    Exif.readFieldValue [] 0 3 1 0x80060000 = .ok (.scalar (-32762), 0) := by
  exact ⟨rfl, by decide, rfl⟩

/-- C5 amended: for every field header with a valid type and
`count × type_width(type) ≤ 4`, the decoded value is a pure function
(`inlineFieldValue`) of the 4-byte `value_or_offset` alone — no buffer byte is
read and the cursor is returned unmoved — where BYTE/ASCII/UNDEFINED take `count`
bytes from the most significant down for `1 ≤ count ≤ 4` but all four bytes for
`count = 0`, SHORT takes the (sign-extending, JavaScript `>>`) top half for
index 0 and the masked bottom half for index 1, LONG and SLONG return the u32
itself, and RATIONAL/SRATIONAL (reachable only with `count = 0`) give an empty
sequence. In particular a SHORT with `count = 1`, `value_offset = 0x00060000`
decodes to 6. -/
theorem C5_inline_pure (b : Bytes) (i type count vo w : Nat)
    (ht : Exif.fieldTypeSize type = .ok w) (hs : count * w ≤ 4) :
    Exif.readFieldValue b i type count vo =
      .ok (Exif.inlineFieldValue type count vo, i) := by
  rcases fieldTypeSize_cases type w ht with ⟨h17, hw⟩ | ⟨h3, hw⟩ | ⟨h49, hw⟩ | ⟨h510, hw⟩
  · subst hw
    have hc : count ≤ 4 := by omega
    rcases h17 with h | h | h <;> subst h <;> interval_cases count <;> rfl
  · subst hw
    subst h3
    have hc : count ≤ 2 := by omega
    interval_cases count <;> rfl
  · subst hw
    have hc : count ≤ 1 := by omega
    rcases h49 with h | h <;> subst h <;> interval_cases count <;> rfl
  · subst hw
    have hc : count = 0 := by omega
    subst hc
    rcases h510 with h | h <;> subst h <;> rfl

/-- C5 witness: the SHORT Orientation scenario, through `C5_inline_pure`. -/
theorem C5_inline_pure_witness :
    Exif.readFieldValue [] 0 3 1 0x00060000 = .ok (.scalar 6, 0) :=
  C5_inline_pure [] 0 3 1 0x00060000 2 rfl (by decide)

/-- C6: the claim (and the spec's §4.1 contract) says `peek()` returns the byte at
`index` without advancing when `index < len` and none whenever `index ≥ len`. The
code's guard is `index > byteLength`, so exactly at `index = len` it falls through
to `getUint8(len)`, an out-of-range `DataView` read that throws instead of
returning none; none is returned only for `index > len`. -/
theorem C6_peek_off_by_one :
    BufferParser.peek [7] 0 = .ok (some 7) ∧
    BufferParser.peek [7] 1 = .error .oob ∧
    BufferParser.peek [7] 2 = .ok none := ⟨rfl, rfl, rfl⟩

/-- C8: the claim (and the source's own comment, `SLONG … (2's complement
notation)`) says an inline SLONG is the u32 reinterpreted as a signed i32, so
`value_or_offset ≥ 2^31` decodes negative. The inline branch instead applies
`>>> 0` (`ToUint32`, the identity here): `0x80000000` decodes to +2147483648,
not −2147483648 — while the same bit pattern read through the out-of-line path
(`readI32`) does decode to −2147483648, as the second conjunct shows. -/
theorem C8_slong_inline_unsigned :
    Exif.readFieldValue [] 0 9 1 0x80000000 = .ok (.scalar 2147483648, 0) ∧
    (2147483648 : Int) ≠ -2147483648 ∧
    Exif.readFieldValue [0x80, 0, 0, 0, 0x80, 0, 0, 0] 0 9 2 0 =
      .ok (.seq [.int (-2147483648), .int (-2147483648)], 0) := by
  exact ⟨rfl, by decide, rfl⟩

/-- C9: `getSpan(length)` and `getSpanTo(end)` assign the cursor to the requested
end before the bounds check, so a failing call leaves the cursor past the end of
the buffer: the calls are not atomic. -/
theorem C9_getSpan_not_atomic (b : Bytes) (i n e : Nat)
    (h1 : b.length < i + n) (h2 : b.length < e) :
    (BufferParser.getSpan b i n).1 = .error .eof ∧
    (BufferParser.getSpan b i n).2 = i + n ∧
    b.length < (BufferParser.getSpan b i n).2 ∧
    (BufferParser.getSpanTo b i e).1 = .error .eof ∧
    (BufferParser.getSpanTo b i e).2 = e ∧
    b.length < (BufferParser.getSpanTo b i e).2 := by
  unfold BufferParser.getSpan BufferParser.getSpanTo
  exact ⟨by simp [h1], rfl, h1, by simp [h2], rfl, h2⟩

/-- C9 witness: a failing `getSpan`/`getSpanTo` on the empty buffer. -/
theorem C9_getSpan_not_atomic_witness :
    (BufferParser.getSpan [] 0 1).1 = .error .eof ∧
    (BufferParser.getSpan [] 0 1).2 = 1 ∧
    List.length ([] : Bytes) < (BufferParser.getSpan [] 0 1).2 ∧
    (BufferParser.getSpanTo [] 0 1).1 = .error .eof ∧
    (BufferParser.getSpanTo [] 0 1).2 = 1 ∧
    List.length ([] : Bytes) < (BufferParser.getSpanTo [] 0 1).2 :=
  C9_getSpan_not_atomic [] 0 1 1 (by decide) (by decide)

end FileInspector

namespace FileInspector

/-- Helper: a Nat bitwise-or is zero iff both operands are. -/
theorem lor_eq_zero_iff (x y : Nat) : x ||| y = 0 ↔ x = 0 ∧ y = 0 := by
  constructor
  · intro h
    have hx : x = 0 := by
      apply Nat.eq_of_testBit_eq
      intro i
      have h2 := congrArg (fun z => Nat.testBit z i) h
      simp only [Nat.testBit_or, Nat.zero_testBit, Bool.or_eq_false_iff] at h2
      simp [h2.1]
    have hy : y = 0 := by
      apply Nat.eq_of_testBit_eq
      intro i
      have h2 := congrArg (fun z => Nat.testBit z i) h
      simp only [Nat.testBit_or, Nat.zero_testBit, Bool.or_eq_false_iff] at h2
      simp [h2.2]
    exact ⟨hx, hy⟩
  · rintro ⟨rfl, rfl⟩
    rfl

/-- Helper: an in-bounds `readNBitsGo` run consumes exactly the requested number of
bits, and its accumulator is zero iff the incoming accumulator was zero and every
consumed bit is zero. -/
theorem readNBitsGo_run (b : Bytes) :
    ∀ n cur i acc, cur + n ≤ 8 * b.length →
      ∃ v, BitParser.readNBitsGo b cur n i acc = .ok (v, cur + n) ∧
        (v = 0 ↔ acc = 0 ∧ ∀ j, cur ≤ j → j < cur + n → BitParser.bitAt b j = 0) := by
  intro n
  induction n with
  | zero =>
    intro cur i acc h
    refine ⟨acc, rfl, ?_, fun hh => hh.1⟩
    intro ha
    exact ⟨ha, fun j h1 h2 => by omega⟩
  | succ n ih =>
    intro cur i acc h
    have hlt : cur / 8 < b.length := Nat.div_lt_of_lt_mul (by omega)
    have hget : b.get? (cur / 8) = some (b.get ⟨cur / 8, hlt⟩) := List.get?_eq_get hlt
    have hbit : BitParser.bitAt b cur = ((b.get ⟨cur / 8, hlt⟩) >>> (cur % 8)) &&& 1 := by
      unfold BitParser.bitAt
      rw [List.getD_eq_get?, hget]
      rfl
    obtain ⟨v, hv, hiff⟩ := ih (cur + 1) (i + 1)
      (acc ||| (((b.get ⟨cur / 8, hlt⟩) >>> (cur % 8)) &&& 1) <<< (i % 32)) (by omega)
    have hrun : BitParser.readNBitsGo b cur (n + 1) i acc = .ok (v, cur + (n + 1)) := by
      show (do
        let (bit, c2) ← BitParser.readBit b cur
        BitParser.readNBitsGo b c2 n (i + 1) (acc ||| (bit <<< (i % 32)))) = _
      unfold BitParser.readBit
      rw [hget]
      show BitParser.readNBitsGo b (cur + 1) n (i + 1)
        (acc ||| (((b.get ⟨cur / 8, hlt⟩) >>> (cur % 8)) &&& 1) <<< (i % 32)) = _
      rw [show cur + (n + 1) = cur + 1 + n from by omega]
      exact hv
    refine ⟨v, hrun, ?_⟩
    rw [hiff, lor_eq_zero_iff]
    constructor
    · rintro ⟨⟨ha, hb⟩, hrest⟩
      refine ⟨ha, fun j h1 h2 => ?_⟩
      rcases Nat.eq_or_lt_of_le h1 with rfl | hlt2
      · rw [hbit]
        rw [Nat.shiftLeft_eq, Nat.mul_eq_zero] at hb
        rcases hb with hb | hb
        · exact hb
        · exact absurd hb (by positivity)
      · exact hrest j (by omega) (by omega)
    · rintro ⟨ha, hall⟩
      refine ⟨⟨ha, ?_⟩, fun j h1 h2 => hall j (by omega) (by omega)⟩
      rw [Nat.shiftLeft_eq, Nat.mul_eq_zero]
      left
      have hc := hall cur le_rfl (by omega)
      rwa [hbit] at hc

/-- C10: `BitParser.atEnd()` is not a pure observer. Called at any valid cursor
position it consumes every remaining bit — the cursor is left at
`8 × len(buffer)` — and it returns `true` iff every bit it consumed is zero. -/
theorem C10_atEnd_consumes_all (b : Bytes) (cursor : Nat) (h : cursor ≤ 8 * b.length) :
    BitParser.atEnd b cursor =
      .ok (decide (∀ j, j < 8 * b.length → cursor ≤ j → BitParser.bitAt b j = 0),
           8 * b.length) := by
  obtain ⟨v, hv, hiff⟩ := readNBitsGo_run b (8 * b.length - cursor) cursor 0 0 (by omega)
  have hsum : cursor + (8 * b.length - cursor) = 8 * b.length := by omega
  rw [hsum] at hv hiff
  have hiff2 : v = 0 ↔ ∀ j, j < 8 * b.length → cursor ≤ j → BitParser.bitAt b j = 0 := by
    rw [hiff]
    constructor
    · rintro ⟨-, hall⟩ j h1 h2
      exact hall j h2 h1
    · intro hall
      exact ⟨rfl, fun j h1 h2 => hall j h2 h1⟩
  show (do
    let (last, c2) ← BitParser.readNBits b cursor (8 * b.length - cursor)
    (.ok (last == 0, c2) : Except Err (Bool × Nat))) = _
  unfold BitParser.readNBits
  rw [hv]
  have hval : (v == 0) =
      decide (∀ j, j < 8 * b.length → cursor ≤ j → BitParser.bitAt b j = 0) := by
    by_cases hz : v = 0
    · have hP := hiff2.mp hz
      simp only [hz, beq_self_eq_true]
      exact (decide_eq_true hP).symm
    · have hP : ¬(∀ j, j < 8 * b.length → cursor ≤ j → BitParser.bitAt b j = 0) :=
        fun hc => hz (hiff2.mpr hc)
      rw [decide_eq_false hP]
      simp [hz]
  show Except.ok ((v == 0), 8 * b.length) = _
  rw [hval]

/-- C10 witness: on the one-byte buffer `[1]` from cursor 0 the call consumes all
eight bits, returns `false` (bit 0 is set), and leaves the cursor at 8. -/
theorem C10_atEnd_consumes_all_witness : BitParser.atEnd [1] 0 = .ok (false, 8) :=
  (C10_atEnd_consumes_all [1] 0 (by decide)).trans (by decide)

end FileInspector

namespace FileInspector

/-- Helper: a successful `consumeIfEquals` means the compared bytes end strictly
before the end of the buffer (the source's `>=` guard). -/
theorem consumeIfEquals_true_bound (b : Bytes) (i : Nat) (bs : Bytes)
    (h : (BufferParser.consumeIfEquals b i bs).1 = true) : bs.length + i < b.length := by
  unfold BufferParser.consumeIfEquals at h
  by_cases hb : b.length ≤ bs.length + i
  · rw [if_pos hb] at h
    exact absurd h (by simp)
  · omega

/-- Helper: the reverse scan returns the highest index in `[1, n]` at which
`consumeIfEquals` matches the EoCD signature. -/
theorem scanEoCD_finds (b : Bytes) :
    ∀ n p, 1 ≤ p → p ≤ n →
      (BufferParser.consumeIfEquals b p Zip.END_CENTRAL_DIRECTORY_SIGNATURE).1 = true →
      (∀ q, p < q → q ≤ n →
        (BufferParser.consumeIfEquals b q Zip.END_CENTRAL_DIRECTORY_SIGNATURE).1 = false) →
      Zip.scanEoCD b n = some p := by
  intro n
  induction n with
  | zero =>
    intro p h1 h2 _ _
    omega
  | succ n ih =>
    intro p h1 h2 hmatch hnone
    unfold Zip.scanEoCD
    by_cases he : p = n + 1
    · subst he
      rw [if_pos hmatch]
    · have hq := hnone (n + 1) (by omega) le_rfl
      rw [if_neg (by simp [hq])]
      exact ih p h1 (by omega) hmatch (fun q hq1 hq2 => hnone q hq1 (by omega))

/-- Helper: the reverse scan returns `none` when no index in `[1, n]` matches. -/
theorem scanEoCD_none (b : Bytes) :
    ∀ n, (∀ q, 1 ≤ q → q ≤ n →
      (BufferParser.consumeIfEquals b q Zip.END_CENTRAL_DIRECTORY_SIGNATURE).1 = false) →
      Zip.scanEoCD b n = none := by
  intro n
  induction n with
  | zero =>
    intro _
    rfl
  | succ n ih =>
    intro hnone
    unfold Zip.scanEoCD
    rw [if_neg (by simp [hnone (n + 1) (by omega) le_rfl])]
    exact ih (fun q h1 h2 => hnone q h1 (by omega))

/-- C3 counterexample: in the minimal 22-byte archive — the EoCD record alone, its
signature at offset 0 — the signature **is** carried by position 0 (first
conjunct), yet the parse raises MissingCentralDirectory, because the reverse scan
`for (idx = byteLength - 1; idx > 0; idx -= 1)` never tries offset 0. The claim
says this archive is located and that the error is raised only when no position
carries the signature. -/
theorem C3_counterexample :
    (BufferParser.consumeIfEquals zipMinimal 0 Zip.END_CENTRAL_DIRECTORY_SIGNATURE).1
      = true ∧
    Zip.parseEndOfCentralDirectory zipMinimal = .error .missingCentralDirectory :=
  ⟨rfl, rfl⟩

/-- C3 amended: the reverse scan tries offsets `len−1` down to `1` only. Whenever
the signature matches at some position `p ≥ 1` and at no higher position, the
parse locates it there and returns the EoCD fields read from `p + 4`; and
MissingCentralDirectory is raised whenever no position in `[1, len)` matches —
including the minimal 22-byte archive, whose only signature sits at the untried
offset 0. -/
theorem C3_reverse_scan (b : Bytes) :
    (∀ p, 1 ≤ p →
      (BufferParser.consumeIfEquals b p Zip.END_CENTRAL_DIRECTORY_SIGNATURE).1 = true →
      (∀ q, q < b.length → p < q →
        (BufferParser.consumeIfEquals b q Zip.END_CENTRAL_DIRECTORY_SIGNATURE).1 = false) →
      Zip.parseEndOfCentralDirectory b = Zip.readEnd b (p + 4)) ∧
    ((∀ q, q < b.length → 1 ≤ q →
        (BufferParser.consumeIfEquals b q Zip.END_CENTRAL_DIRECTORY_SIGNATURE).1 = false) →
      Zip.parseEndOfCentralDirectory b = .error .missingCentralDirectory) := by
  constructor
  · intro p h1 h2 h3
    have hbound := consumeIfEquals_true_bound b p _ h2
    have hsig : Zip.END_CENTRAL_DIRECTORY_SIGNATURE.length = 4 := rfl
    rw [hsig] at hbound
    have hscan : Zip.scanEoCD b (b.length - 1) = some p :=
      scanEoCD_finds b (b.length - 1) p h1 (by omega) h2
        (fun q hq1 hq2 => h3 q (by omega) hq1)
    unfold Zip.parseEndOfCentralDirectory
    rw [hscan]
  · intro hnone
    have hscan : Zip.scanEoCD b (b.length - 1) = none :=
      scanEoCD_none b (b.length - 1) (fun q h1 h2 => hnone q (by omega) h1)
    unfold Zip.parseEndOfCentralDirectory
    rw [hscan]

/-- C3 witness: the spec's sample EoCD behind one padding byte (signature at
offset 1) is located and parsed to `total_entries = 1`, `cd_size = 59`,
`cd_offset = 160`, empty comment; the minimal archive raises
MissingCentralDirectory. -/
theorem C3_reverse_scan_witness :
    Zip.parseEndOfCentralDirectory zipSample = .ok (⟨0, 0, 1, 1, 59, 160, ⟨23, 23⟩⟩, 23) ∧
    Zip.parseEndOfCentralDirectory zipMinimal = .error .missingCentralDirectory := by
  constructor
  · exact ((C3_reverse_scan zipSample).1 1 (by decide) (by decide) (by decide)).trans
      (by decide)
  · exact (C3_reverse_scan zipMinimal).2 (by decide)

end FileInspector

namespace FileInspector

/-! Helper lemmas for the PNG chunk re-parse (C7): running the schema walk over
the slice `bytes_for_span(raw_data)` relates to running it in place, with every
index and span translated by the slice's start. `sl` abstracts the slice: a list
of length `L` whose entries are the bytes of `b` at positions `s, …, s + L - 1`. -/

section ShiftLemmas

variable (b sl : Bytes) (s L : Nat)

theorem getUint8_shift (hl : sl.length = L)
    (hg : ∀ i, i < L → sl.get? i = b.get? (s + i)) (i v : Nat)
    (h : BufferParser.getUint8 sl i = .ok v) :
    BufferParser.getUint8 b (s + i) = .ok v := by
  unfold BufferParser.getUint8 at h ⊢
  cases hx : sl.get? i with
  | none =>
    rw [hx] at h
    cases h
  | some w =>
    rw [hx] at h
    have hi : i < L := by
      obtain ⟨hlt, -⟩ := List.get?_eq_some.mp hx
      omega
    rw [← hg i hi, hx]
    exact h

theorem getUint16_shift (hl : sl.length = L)
    (hg : ∀ i, i < L → sl.get? i = b.get? (s + i)) (le : Bool) (i v : Nat)
    (h : BufferParser.getUint16 sl le i = .ok v) :
    BufferParser.getUint16 b le (s + i) = .ok v := by
  unfold BufferParser.getUint16 at h ⊢
  simp only [bind, Except.bind] at h ⊢
  cases hx : BufferParser.getUint8 sl i with
  | error e =>
    rw [hx] at h
    cases h
  | ok b0 =>
    rw [hx] at h
    rw [getUint8_shift b sl s L hl hg i b0 hx]
    cases hy : BufferParser.getUint8 sl (i + 1) with
    | error e =>
      rw [hy] at h
      cases h
    | ok b1 =>
      rw [hy] at h
      have h2 := getUint8_shift b sl s L hl hg (i + 1) b1 hy
      rw [show s + i + 1 = s + (i + 1) from by omega, h2]
      exact h

theorem getUint32_shift (hl : sl.length = L)
    (hg : ∀ i, i < L → sl.get? i = b.get? (s + i)) (le : Bool) (i v : Nat)
    (h : BufferParser.getUint32 sl le i = .ok v) :
    BufferParser.getUint32 b le (s + i) = .ok v := by
  unfold BufferParser.getUint32 at h ⊢
  simp only [bind, Except.bind] at h ⊢
  cases hx : BufferParser.getUint8 sl i with
  | error e =>
    rw [hx] at h
    cases h
  | ok b0 =>
    rw [hx] at h
    rw [getUint8_shift b sl s L hl hg i b0 hx]
    cases hy : BufferParser.getUint8 sl (i + 1) with
    | error e =>
      rw [hy] at h
      cases h
    | ok b1 =>
      rw [hy] at h
      rw [show s + i + 1 = s + (i + 1) from by omega,
        getUint8_shift b sl s L hl hg (i + 1) b1 hy]
      cases hz : BufferParser.getUint8 sl (i + 2) with
      | error e =>
        rw [hz] at h
        cases h
      | ok b2 =>
        rw [hz] at h
        rw [show s + i + 2 = s + (i + 2) from by omega,
          getUint8_shift b sl s L hl hg (i + 2) b2 hz]
        cases hw : BufferParser.getUint8 sl (i + 3) with
        | error e =>
          rw [hw] at h
          cases h
        | ok b3 =>
          rw [hw] at h
          rw [show s + i + 3 = s + (i + 3) from by omega,
            getUint8_shift b sl s L hl hg (i + 3) b3 hw]
          exact h

theorem scanNull_shift_idx : ∀ (l : Bytes) (i t : Nat),
    BufferParser.scanNull l (t + i) = (BufferParser.scanNull l i).map (t + ·) := by
  intro l
  induction l with
  | nil =>
    intro i t
    rfl
  | cons x rest ih =>
    intro i t
    cases x with
    | zero => rfl
    | succ y => exact ih (i + 1) t

theorem scanNull_append : ∀ (l1 l2 : Bytes) (i e : Nat),
    BufferParser.scanNull l1 i = some e →
    BufferParser.scanNull (l1 ++ l2) i = some e := by
  intro l1
  induction l1 with
  | nil =>
    intro l2 i e h
    cases h
  | cons x rest ih =>
    intro l2 i e h
    cases x with
    | zero => exact h
    | succ y => exact ih l2 (i + 1) e h

theorem drop_slice_decomp (hl : sl.length = L)
    (hg : ∀ i, i < L → sl.get? i = b.get? (s + i))
    (hb : s + L ≤ b.length) (i : Nat) (hi : i ≤ L) :
    b.drop (s + i) = sl.drop i ++ b.drop (s + L) := by
  apply List.ext_get?
  intro n
  rw [List.get?_drop]
  by_cases hn : n < L - i
  · rw [List.get?_append (by rw [List.length_drop, hl]; omega)]
    rw [List.get?_drop]
    rw [hg (i + n) (by omega)]
    congr 1
    omega
  · rw [List.get?_append_right (by rw [List.length_drop, hl]; omega)]
    rw [List.get?_drop, List.length_drop, hl]
    congr 1
    omega

theorem readNTS_shift (hl : sl.length = L)
    (hg : ∀ i, i < L → sl.get? i = b.get? (s + i))
    (hb : s + L ≤ b.length) (i : Nat) (sp : Span) (j : Nat)
    (h : BufferParser.readNullTerminatedString sl i = .ok (sp, j)) :
    BufferParser.readNullTerminatedString b (s + i) =
      .ok (⟨s + sp.start, s + sp.stop⟩, s + j) := by
  unfold BufferParser.readNullTerminatedString at h ⊢
  cases hscan : BufferParser.scanNull (sl.drop i) i with
  | none =>
    rw [hscan] at h
    cases h
  | some e =>
    rw [hscan] at h
    injection h with h1
    injection h1 with h1a h1b
    subst h1b
    subst h1a
    have hne : sl.drop i ≠ [] := by
      intro hnil
      rw [hnil] at hscan
      cases hscan
    have hi : i ≤ L := by
      by_contra hc
      exact hne (List.drop_eq_nil_of_le (by omega))
    have hfull : BufferParser.scanNull (b.drop (s + i)) i = some e := by
      rw [drop_slice_decomp b sl s L hl hg hb i hi]
      exact scanNull_append _ _ i e hscan
    have hshift := scanNull_shift_idx (b.drop (s + i)) i s
    rw [hfull] at hshift
    rw [hshift]
    rfl

theorem parseFieldKind_shift (hl : sl.length = L)
    (hg : ∀ i, i < L → sl.get? i = b.get? (s + i))
    (hb : s + L ≤ b.length) (kind : Png.ChunkFieldKind)
    (i : Nat) (v : Png.ChunkValue) (j : Nat)
    (h : Png.parseFieldKind sl L i kind = .ok (v, j)) :
    Png.parseFieldKind b (s + L) (s + i) kind = .ok (Png.shiftValue s v, s + j) := by
  cases kind with
  | u8 =>
    unfold Png.parseFieldKind BufferParser.next at h ⊢
    simp only [bind, Except.bind] at h ⊢
    cases hx : BufferParser.getUint8 sl i with
    | error e =>
      rw [hx] at h
      cases h
    | ok b0 =>
      rw [hx] at h
      rw [getUint8_shift b sl s L hl hg i b0 hx]
      injection h with h1
      injection h1 with h1a h1b
      subst h1a h1b
      rfl
  | u16 =>
    unfold Png.parseFieldKind BufferParser.readU16 at h ⊢
    simp only [bind, Except.bind] at h ⊢
    cases hx : BufferParser.getUint16 sl false i with
    | error e =>
      rw [hx] at h
      cases h
    | ok b0 =>
      rw [hx] at h
      rw [getUint16_shift b sl s L hl hg false i b0 hx]
      injection h with h1
      injection h1 with h1a h1b
      subst h1a h1b
      rfl
  | u32 =>
    unfold Png.parseFieldKind BufferParser.readU32 at h ⊢
    simp only [bind, Except.bind] at h ⊢
    cases hx : BufferParser.getUint32 sl false i with
    | error e =>
      rw [hx] at h
      cases h
    | ok b0 =>
      rw [hx] at h
      rw [getUint32_shift b sl s L hl hg false i b0 hx]
      injection h with h1
      injection h1 with h1a h1b
      subst h1a h1b
      rfl
  | nullTerminated =>
    unfold Png.parseFieldKind at h ⊢
    simp only [bind, Except.bind] at h ⊢
    cases hx : BufferParser.readNullTerminatedString sl i with
    | error e =>
      rw [hx] at h
      cases h
    | ok spj =>
      obtain ⟨sp, j0⟩ := spj
      rw [hx] at h
      rw [readNTS_shift b sl s L hl hg hb i sp j0 hx]
      injection h with h1
      injection h1 with h1a h1b
      subst h1a h1b
      rfl
  | bufferRest =>
    unfold Png.parseFieldKind BufferParser.getSpanToE BufferParser.getSpanTo at h ⊢
    simp only [bind, Except.bind] at h ⊢
    rw [if_neg (by omega : ¬ sl.length < L)] at h
    rw [if_neg (by omega : ¬ b.length < s + L)]
    injection h with h1
    injection h1 with h1a h1b
    subst h1a h1b
    rfl

theorem parseChunkDefinition_shift (hl : sl.length = L)
    (hg : ∀ i, i < L → sl.get? i = b.get? (s + i))
    (hb : s + L ≤ b.length) :
    ∀ (defn : List (String × Png.ChunkFieldKind)) (i : Nat) (F : Png.ChunkFields) (f : Nat),
      Png.parseChunkDefinition sl L i defn = .ok (F, f) →
      Png.parseChunkDefinition b (s + L) (s + i) defn =
        .ok (Png.shiftFields s F, s + f) := by
  intro defn
  induction defn with
  | nil =>
    intro i F f h
    injection h with h1
    injection h1 with h1a h1b
    subst h1a h1b
    rfl
  | cons fieldDef rest ih =>
    obtain ⟨nm, kind⟩ := fieldDef
    intro i F f h
    unfold Png.parseChunkDefinition at h ⊢
    simp only [bind, Except.bind] at h ⊢
    cases hx : Png.parseFieldKind sl L i kind with
    | error e =>
      rw [hx] at h
      cases h
    | ok vj =>
      obtain ⟨v, j⟩ := vj
      rw [hx] at h
      dsimp only at h
      rw [parseFieldKind_shift b sl s L hl hg hb kind i v j hx]
      dsimp only
      cases hy : Png.parseChunkDefinition sl L j rest with
      | error e =>
        rw [hy] at h
        cases h
      | ok vsj =>
        obtain ⟨vs, j2⟩ := vsj
        rw [hy] at h
        rw [ih j vs j2 hy]
        injection h with h1
        injection h1 with h1a h1b
        subst h1a h1b
        rfl

end ShiftLemmas

end FileInspector

namespace FileInspector

/-- C7 counterexample: parsing a PNG whose `tEXt` chunk data (at offset 16) is
`"ab\0xyz"` records span-valued fields in absolute coordinates
(`keyword = [16,19)`, `text = [19,22)`); re-parsing the chunk's `raw_data` bytes
with the same schema from a fresh cursor yields the spans `[0,3)` and `[3,6)`,
so the two `parsed_fields` maps are **not** equal, contradicting the claim for
span-valued fields. -/
theorem C7_counterexample :
    Png.parse pngText = .ok ⟨⟨0, 8⟩,
      [⟨(116, 69, 88, 116), ⟨16, 22⟩, 0,
        some [("keyword", .span ⟨16, 19⟩), ("text", .span ⟨19, 22⟩)]⟩]⟩ ∧
    Png.reparseChunkFields pngText
        ⟨(116, 69, 88, 116), ⟨16, 22⟩, 0,
          some [("keyword", .span ⟨16, 19⟩), ("text", .span ⟨19, 22⟩)]⟩
        tEXtDefinition
      = .ok ([("keyword", .span ⟨0, 3⟩), ("text", .span ⟨3, 6⟩)], 6) ∧
    ([("keyword", Png.ChunkValue.span ⟨0, 3⟩), ("text", Png.ChunkValue.span ⟨3, 6⟩)]
        : Png.ChunkFields)
      ≠ [("keyword", .span ⟨16, 19⟩), ("text", .span ⟨19, 22⟩)] := by
  exact ⟨rfl, rfl, by decide⟩

/-- C7 amended: re-parsing the bytes of a chunk's `raw_data` span with the same
schema from a fresh cursor yields exactly the original walk's fields with every
span translated down by the chunk's data start (numeric fields verbatim):
whenever the re-parse of the slice succeeds with fields `F` and final cursor `f`,
the in-place walk over `[start, stop)` yields `F` with every span shifted up by
`start`, and cursor `start + f`. The two maps are equal verbatim only when no
span-valued field is involved or the chunk data starts at offset 0. -/
theorem C7_reparse_shifted (b : Bytes) (c : Png.Chunk)
    (defn : List (String × Png.ChunkFieldKind)) (F : Png.ChunkFields) (f : Nat)
    (hse : c.rawData.start ≤ c.rawData.stop) (hb : c.rawData.stop ≤ b.length)
    (h : Png.reparseChunkFields b c defn = .ok (F, f)) :
    Png.parseChunkDefinition b c.rawData.stop c.rawData.start defn =
      .ok (Png.shiftFields c.rawData.start F, c.rawData.start + f) := by
  set sl := BufferParser.bytesForSpan b c.rawData with hsl
  have hl : sl.length = c.rawData.stop - c.rawData.start := by
    rw [hsl]
    unfold BufferParser.bytesForSpan
    rw [List.length_drop, List.length_take]
    omega
  have hg : ∀ i, i < c.rawData.stop - c.rawData.start →
      sl.get? i = b.get? (c.rawData.start + i) := by
    intro i hi
    rw [hsl]
    unfold BufferParser.bytesForSpan
    rw [List.get?_drop]
    exact List.get?_take (by omega)
  have hmain := parseChunkDefinition_shift b sl c.rawData.start
    (c.rawData.stop - c.rawData.start) hl hg (by omega) defn 0 F f
    (by
      unfold Png.reparseChunkFields at h
      exact h)
  rw [show c.rawData.start + (c.rawData.stop - c.rawData.start) = c.rawData.stop
    from by omega] at hmain
  rw [show c.rawData.start + 0 = c.rawData.start from by omega] at hmain
  exact hmain

/-- C7 witness: the re-parse/in-place correspondence applied to the `tEXt` chunk
of `pngText`. -/
theorem C7_reparse_shifted_witness :
    Png.parseChunkDefinition pngText 22 16 tEXtDefinition =
      .ok ([("keyword", .span ⟨16, 19⟩), ("text", .span ⟨19, 22⟩)], 22) :=
  (C7_reparse_shifted pngText
    ⟨(116, 69, 88, 116), ⟨16, 22⟩, 0,
      some [("keyword", .span ⟨16, 19⟩), ("text", .span ⟨19, 22⟩)]⟩
    tEXtDefinition
    [("keyword", .span ⟨0, 3⟩), ("text", .span ⟨3, 6⟩)] 6
    (by decide) (by decide) (by decide)).trans (by decide)

end FileInspector

namespace FileInspector

/-! Helper lemmas for C2: the parsers never inspect the magic bytes, so their
result is unchanged under any replacement of the leading bytes. `AgreeFrom k`
captures two buffers of the same length agreeing at every index `≥ k`; the
lemmas below push this agreement through every read the parsers perform, all of
which touch only indexes at or beyond the cursor, which never moves below `k`. -/

theorem AgreeFrom.len {k : Nat} {b1 b2 : Bytes} (h : AgreeFrom k b1 b2) :
    b1.length = b2.length := h.1

theorem AgreeFrom.get {k : Nat} {b1 b2 : Bytes} (h : AgreeFrom k b1 b2) {i : Nat}
    (hk : k ≤ i) : b1.get? i = b2.get? i := by
  rcases Nat.lt_or_ge i b1.length with hl | hl
  · exact h.2 i hl hk
  · rw [List.get?_eq_none.mpr hl, List.get?_eq_none.mpr (h.1 ▸ hl)]

/-- Congruence for `Except` bind with equal heads. -/
theorem bindA {α β : Type} {p1 p2 : Except Err α} {f1 f2 : α → Except Err β}
    (hp : p1 = p2) (hf : ∀ a, p2 = .ok a → f1 a = f2 a) :
    (p1 >>= f1) = (p2 >>= f2) := by
  subst hp
  cases p1 with
  | error e => rfl
  | ok a => exact hf a rfl

section PrimShape

variable {b : Bytes} {le : Bool} {i j n e : Nat}

theorem next_ok {v : Nat} (h : BufferParser.next b i = .ok (v, j)) : j = i + 1 := by
  unfold BufferParser.next at h
  cases hx : BufferParser.getUint8 b i with
  | error er =>
    rw [hx] at h
    cases h
  | ok w =>
    rw [hx] at h
    injection h with h1
    injection h1 with h1a h1b
    omega

theorem readU16_ok {v : Nat} (h : BufferParser.readU16 b le i = .ok (v, j)) :
    j = i + 2 := by
  unfold BufferParser.readU16 at h
  cases hx : BufferParser.getUint16 b le i with
  | error er =>
    rw [hx] at h
    cases h
  | ok w =>
    rw [hx] at h
    injection h with h1
    injection h1 with h1a h1b
    omega

theorem readU32_ok {v : Nat} (h : BufferParser.readU32 b le i = .ok (v, j)) :
    j = i + 4 := by
  unfold BufferParser.readU32 at h
  cases hx : BufferParser.getUint32 b le i with
  | error er =>
    rw [hx] at h
    cases h
  | ok w =>
    rw [hx] at h
    injection h with h1
    injection h1 with h1a h1b
    omega

theorem readI32_ok {v : Int} (h : BufferParser.readI32 b le i = .ok (v, j)) :
    j = i + 4 := by
  unfold BufferParser.readI32 at h
  cases hx : BufferParser.getInt32 b le i with
  | error er =>
    rw [hx] at h
    cases h
  | ok w =>
    rw [hx] at h
    injection h with h1
    injection h1 with h1a h1b
    omega

theorem getSpanE_ok {sp : Span} (h : BufferParser.getSpanE b i n = .ok (sp, j)) :
    sp = ⟨i, i + n⟩ ∧ j = i + n := by
  unfold BufferParser.getSpanE BufferParser.getSpan at h
  dsimp only at h
  by_cases hc : b.length < i + n
  · rw [if_pos hc] at h
    cases h
  · rw [if_neg hc] at h
    injection h with h1
    injection h1 with h1a h1b
    exact ⟨h1a.symm, h1b.symm⟩

theorem getSpanToE_ok {sp : Span} (h : BufferParser.getSpanToE b i e = .ok (sp, j)) :
    sp = ⟨i, e⟩ ∧ j = e := by
  unfold BufferParser.getSpanToE BufferParser.getSpanTo at h
  by_cases hc : b.length < e
  · rw [if_pos hc] at h
    cases h
  · rw [if_neg hc] at h
    injection h with h1
    injection h1 with h1a h1b
    exact ⟨h1a.symm, h1b.symm⟩

theorem scanNull_ge : ∀ (l : Bytes) (i e : Nat),
    BufferParser.scanNull l i = some e → i + 1 ≤ e := by
  intro l
  induction l with
  | nil =>
    intro i e h
    cases h
  | cons x rest ih =>
    intro i e h
    cases x with
    | zero =>
      injection h with h1
      omega
    | succ y =>
      have := ih (i + 1) e h
      omega

theorem readNTS_ok {sp : Span} (h : BufferParser.readNullTerminatedString b i = .ok (sp, j)) :
    i + 1 ≤ j ∧ sp.start = i ∧ sp.stop = j := by
  unfold BufferParser.readNullTerminatedString at h
  cases hx : BufferParser.scanNull (b.drop i) i with
  | none =>
    rw [hx] at h
    cases h
  | some e2 =>
    rw [hx] at h
    injection h with h1
    injection h1 with h1a h1b
    subst h1b
    have := scanNull_ge (b.drop i) i e2 hx
    rw [← h1a]
    exact ⟨by omega, rfl, rfl⟩

end PrimShape

section PrimAgree

variable {k : Nat} {b1 b2 : Bytes}

theorem getUint8_agree (h : AgreeFrom k b1 b2) {i : Nat} (hk : k ≤ i) :
    BufferParser.getUint8 b1 i = BufferParser.getUint8 b2 i := by
  unfold BufferParser.getUint8
  rw [h.get hk]

theorem getUint16_agree (h : AgreeFrom k b1 b2) (le : Bool) {i : Nat} (hk : k ≤ i) :
    BufferParser.getUint16 b1 le i = BufferParser.getUint16 b2 le i := by
  unfold BufferParser.getUint16
  rw [getUint8_agree h hk, getUint8_agree h (by omega : k ≤ i + 1)]

theorem getUint32_agree (h : AgreeFrom k b1 b2) (le : Bool) {i : Nat} (hk : k ≤ i) :
    BufferParser.getUint32 b1 le i = BufferParser.getUint32 b2 le i := by
  unfold BufferParser.getUint32
  rw [getUint8_agree h hk, getUint8_agree h (by omega : k ≤ i + 1),
    getUint8_agree h (by omega : k ≤ i + 2), getUint8_agree h (by omega : k ≤ i + 3)]

theorem getInt32_agree (h : AgreeFrom k b1 b2) (le : Bool) {i : Nat} (hk : k ≤ i) :
    BufferParser.getInt32 b1 le i = BufferParser.getInt32 b2 le i := by
  unfold BufferParser.getInt32
  rw [getUint32_agree h le hk]

theorem next_agree (h : AgreeFrom k b1 b2) {i : Nat} (hk : k ≤ i) :
    BufferParser.next b1 i = BufferParser.next b2 i := by
  unfold BufferParser.next
  rw [getUint8_agree h hk]

theorem peek_agree (h : AgreeFrom k b1 b2) {i : Nat} (hk : k ≤ i) :
    BufferParser.peek b1 i = BufferParser.peek b2 i := by
  unfold BufferParser.peek
  rw [h.len, getUint8_agree h hk]

theorem readU16_agree (h : AgreeFrom k b1 b2) (le : Bool) {i : Nat} (hk : k ≤ i) :
    BufferParser.readU16 b1 le i = BufferParser.readU16 b2 le i := by
  unfold BufferParser.readU16
  rw [getUint16_agree h le hk]

theorem readU32_agree (h : AgreeFrom k b1 b2) (le : Bool) {i : Nat} (hk : k ≤ i) :
    BufferParser.readU32 b1 le i = BufferParser.readU32 b2 le i := by
  unfold BufferParser.readU32
  rw [getUint32_agree h le hk]

theorem readI32_agree (h : AgreeFrom k b1 b2) (le : Bool) {i : Nat} (hk : k ≤ i) :
    BufferParser.readI32 b1 le i = BufferParser.readI32 b2 le i := by
  unfold BufferParser.readI32
  rw [getInt32_agree h le hk]

theorem drop_agree (h : AgreeFrom k b1 b2) {i : Nat} (hk : k ≤ i) :
    b1.drop i = b2.drop i := by
  apply List.ext_get?
  intro n
  rw [List.get?_drop, List.get?_drop]
  exact h.get (by omega)

theorem readNTS_agree (h : AgreeFrom k b1 b2) {i : Nat} (hk : k ≤ i) :
    BufferParser.readNullTerminatedString b1 i =
      BufferParser.readNullTerminatedString b2 i := by
  unfold BufferParser.readNullTerminatedString
  rw [drop_agree h hk]

theorem getSpanE_agree (h : AgreeFrom k b1 b2) (i n : Nat) :
    BufferParser.getSpanE b1 i n = BufferParser.getSpanE b2 i n := by
  unfold BufferParser.getSpanE BufferParser.getSpan
  rw [h.len]

theorem getSpanToE_agree (h : AgreeFrom k b1 b2) (i e : Nat) :
    BufferParser.getSpanToE b1 i e = BufferParser.getSpanToE b2 i e := by
  unfold BufferParser.getSpanToE BufferParser.getSpanTo
  rw [h.len]

theorem bytesForSpan_agree (h : AgreeFrom k b1 b2) (sp : Span) (hk : k ≤ sp.start) :
    BufferParser.bytesForSpan b1 sp = BufferParser.bytesForSpan b2 sp := by
  unfold BufferParser.bytesForSpan
  apply List.ext_get?
  intro n
  rw [List.get?_drop, List.get?_drop]
  by_cases hn : sp.start + n < sp.stop
  · rw [List.get?_take hn, List.get?_take hn]
    exact h.get (by omega)
  · rw [List.get?_eq_none.mpr (by rw [List.length_take]; omega),
      List.get?_eq_none.mpr (by rw [List.length_take]; omega)]

end PrimAgree

end FileInspector

namespace FileInspector

/-- Elimination for a successful `Except` bind. -/
theorem bind_ok {α β : Type} {p : Except Err α} {f : α → Except Err β} {r : β}
    (h : (p >>= f) = .ok r) : ∃ a, p = .ok a ∧ f a = .ok r := by
  cases p with
  | error e => cases h
  | ok a => exact ⟨a, rfl, h⟩

section PngAgree

variable {k : Nat} {b1 b2 : Bytes}

theorem readChunkName_agree (h : AgreeFrom k b1 b2) {i : Nat} (hk : k ≤ i) :
    Png.readChunkName b1 i = Png.readChunkName b2 i := by
  unfold Png.readChunkName
  refine bindA (next_agree h hk) ?_
  rintro ⟨n0, i1⟩ h1
  obtain rfl := next_ok h1
  dsimp only
  refine bindA (next_agree h (by omega)) ?_
  rintro ⟨n1, i2⟩ h2
  obtain rfl := next_ok h2
  dsimp only
  refine bindA (next_agree h (by omega)) ?_
  rintro ⟨n2, i3⟩ h3
  obtain rfl := next_ok h3
  dsimp only
  refine bindA (next_agree h (by omega)) ?_
  rintro ⟨n3, i4⟩ h4
  rfl

theorem readChunkName_ok {b : Bytes} {i : Nat} {nm : Nat × Nat × Nat × Nat} {j : Nat}
    (h : Png.readChunkName b i = .ok (nm, j)) : j = i + 4 := by
  unfold Png.readChunkName at h
  obtain ⟨⟨n0, i1⟩, h1, h⟩ := bind_ok h
  obtain rfl := next_ok h1
  obtain ⟨⟨n1, i2⟩, h2, h⟩ := bind_ok h
  obtain rfl := next_ok h2
  obtain ⟨⟨n2, i3⟩, h3, h⟩ := bind_ok h
  obtain rfl := next_ok h3
  obtain ⟨⟨n3, i4⟩, h4, h⟩ := bind_ok h
  obtain rfl := next_ok h4
  injection h with h5
  injection h5 with h5a h5b
  omega

theorem parseFieldKind_agree (h : AgreeFrom k b1 b2) (ce : Nat) {i : Nat} (hk : k ≤ i)
    (kind : Png.ChunkFieldKind) :
    Png.parseFieldKind b1 ce i kind = Png.parseFieldKind b2 ce i kind := by
  cases kind with
  | u8 =>
    unfold Png.parseFieldKind
    rw [next_agree h hk]
  | u16 =>
    unfold Png.parseFieldKind
    rw [readU16_agree h false hk]
  | u32 =>
    unfold Png.parseFieldKind
    rw [readU32_agree h false hk]
  | nullTerminated =>
    unfold Png.parseFieldKind
    rw [readNTS_agree h hk]
  | bufferRest =>
    unfold Png.parseFieldKind
    rw [getSpanToE_agree h i ce]

theorem parseFieldKind_ok {b : Bytes} {ce i : Nat} {kind : Png.ChunkFieldKind}
    {v : Png.ChunkValue} {j : Nat}
    (h : Png.parseFieldKind b ce i kind = .ok (v, j)) : i ≤ j ∨ j = ce := by
  cases kind with
  | u8 =>
    unfold Png.parseFieldKind at h
    obtain ⟨⟨w, j1⟩, h1, h⟩ := bind_ok h
    obtain rfl := next_ok h1
    injection h with h2
    injection h2 with h2a h2b
    omega
  | u16 =>
    unfold Png.parseFieldKind at h
    obtain ⟨⟨w, j1⟩, h1, h⟩ := bind_ok h
    obtain rfl := readU16_ok h1
    injection h with h2
    injection h2 with h2a h2b
    omega
  | u32 =>
    unfold Png.parseFieldKind at h
    obtain ⟨⟨w, j1⟩, h1, h⟩ := bind_ok h
    obtain rfl := readU32_ok h1
    injection h with h2
    injection h2 with h2a h2b
    omega
  | nullTerminated =>
    unfold Png.parseFieldKind at h
    obtain ⟨⟨sp, j1⟩, h1, h⟩ := bind_ok h
    obtain ⟨hge, -, -⟩ := readNTS_ok h1
    injection h with h2
    injection h2 with h2a h2b
    omega
  | bufferRest =>
    unfold Png.parseFieldKind at h
    obtain ⟨⟨sp, j1⟩, h1, h2⟩ := bind_ok h
    obtain ⟨-, hj⟩ := getSpanToE_ok h1
    injection h2 with h3
    injection h3 with h3a h3b
    omega

theorem parseChunkDefinition_agree (h : AgreeFrom k b1 b2) (ce : Nat) (hke : k ≤ ce) :
    ∀ (defn : List (String × Png.ChunkFieldKind)) (i : Nat), k ≤ i →
      Png.parseChunkDefinition b1 ce i defn = Png.parseChunkDefinition b2 ce i defn := by
  intro defn
  induction defn with
  | nil =>
    intro i hk
    rfl
  | cons fd rest ih =>
    obtain ⟨nm, kind⟩ := fd
    intro i hk
    unfold Png.parseChunkDefinition
    refine bindA (parseFieldKind_agree h ce hk kind) ?_
    rintro ⟨v, j⟩ h1
    dsimp only
    have hkj : k ≤ j := by
      rcases parseFieldKind_ok h1 with hj | hj <;> omega
    refine bindA (ih j hkj) ?_
    rintro ⟨vs, j2⟩ h2
    rfl

theorem parseChunk_agree (h : AgreeFrom k b1 b2) {i : Nat} (hk : k ≤ i) :
    Png.parseChunk b1 i = Png.parseChunk b2 i := by
  unfold Png.parseChunk
  refine bindA (readU32_agree h false hk) ?_
  rintro ⟨length, i1⟩ h1
  obtain rfl := readU32_ok h1
  dsimp only
  refine bindA (readChunkName_agree h (by omega)) ?_
  rintro ⟨nm, i2⟩ h2
  obtain rfl := readChunkName_ok h2
  dsimp only
  cases hdef : Png.chunkDefinition nm.1 nm.2.1 nm.2.2.1 nm.2.2.2 with
  | none =>
    refine bindA rfl ?_
    intro y hy
    dsimp only
    refine bindA (getSpanE_agree h _ _) ?_
    rintro ⟨raw, i3⟩ h4
    dsimp only
    obtain ⟨-, rfl⟩ := getSpanE_ok h4
    rw [readU32_agree h false (by omega)]
  | some defn =>
    dsimp only
    refine bindA (parseChunkDefinition_agree h _ (by omega) defn _ (by omega)) ?_
    rintro ⟨flds, jx⟩ h3
    dsimp only
    refine bindA rfl ?_
    intro y hy
    dsimp only
    refine bindA (getSpanE_agree h _ _) ?_
    rintro ⟨raw, i3⟩ h4
    dsimp only
    obtain ⟨-, rfl⟩ := getSpanE_ok h4
    rw [readU32_agree h false (by omega)]

theorem parseChunk_ok {b : Bytes} {i : Nat} {c : Png.Chunk} {j : Nat}
    (h : Png.parseChunk b i = .ok (c, j)) : i ≤ j := by
  unfold Png.parseChunk at h
  obtain ⟨⟨length, i1⟩, h1, h2⟩ := bind_ok h
  obtain rfl := readU32_ok h1
  obtain ⟨⟨nm, i2⟩, h3, h4⟩ := bind_ok h2
  obtain rfl := readChunkName_ok h3
  dsimp only at h4
  cases hdef : Png.chunkDefinition nm.1 nm.2.1 nm.2.2.1 nm.2.2.2 with
  | none =>
    rw [hdef] at h4
    obtain ⟨y, hy, h5⟩ := bind_ok h4
    obtain ⟨⟨raw, i3⟩, h6, h7⟩ := bind_ok h5
    obtain ⟨-, hj3⟩ := getSpanE_ok h6
    obtain ⟨⟨crc, i4⟩, h8, h9⟩ := bind_ok h7
    have hj4 := readU32_ok h8
    injection h9 with h10
    injection h10 with h10a h10b
    omega
  | some defn =>
    rw [hdef] at h4
    obtain ⟨⟨flds, jx⟩, hw, h5⟩ := bind_ok h4
    obtain ⟨y, hy, h6⟩ := bind_ok h5
    obtain ⟨⟨raw, i3⟩, h7, h8⟩ := bind_ok h6
    obtain ⟨-, hj3⟩ := getSpanE_ok h7
    obtain ⟨⟨crc, i4⟩, h9, h10⟩ := bind_ok h8
    have hj4 := readU32_ok h9
    injection h10 with h11
    injection h11 with h11a h11b
    omega

theorem parseChunks_agree (h : AgreeFrom k b1 b2) :
    ∀ (n i : Nat), k ≤ i → Png.parseChunks b1 i n = Png.parseChunks b2 i n := by
  intro n
  induction n with
  | zero =>
    intro i hk
    rfl
  | succ n ih =>
    intro i hk
    unfold Png.parseChunks
    rw [h.len]
    split
    · rfl
    · refine bindA (parseChunk_agree h hk) ?_
      rintro ⟨c, j⟩ h1
      dsimp only
      refine bindA (ih j (le_trans hk (parseChunk_ok h1))) ?_
      intro rest h2
      rfl

theorem pngParse_agree (h : AgreeFrom 8 b1 b2) : Png.parse b1 = Png.parse b2 := by
  unfold Png.parse
  refine bindA (getSpanE_agree h 0 8) ?_
  rintro ⟨hd, i⟩ h1
  obtain ⟨-, rfl⟩ := getSpanE_ok h1
  dsimp only
  rw [h.len]
  refine bindA (parseChunks_agree h (b2.length + 1) (0 + 8) (by omega)) ?_
  intro chunks h2
  rfl

end PngAgree

end FileInspector

namespace FileInspector

section GifAgree

variable {k : Nat} {b1 b2 : Bytes}

theorem parseSubBlocks_ok {b : Bytes} :
    ∀ {n i : Nat} {v : Bytes} {j : Nat},
      Gif.parseSubBlocks b i n = .ok (v, j) → i ≤ j := by
  intro n
  induction n with
  | zero =>
    intro i v j h
    cases h
  | succ n ih =>
    intro i v j h
    unfold Gif.parseSubBlocks at h
    obtain ⟨p, hp, h2⟩ := bind_ok h
    split at h2
    · obtain ⟨⟨w, i1⟩, h3, h4⟩ := bind_ok h2
      have := next_ok h3
      injection h4 with h5
      injection h5 with h5a h5b
      omega
    · obtain ⟨⟨len, i1⟩, h3, h4⟩ := bind_ok h2
      have hi1 := next_ok h3
      obtain ⟨⟨sp, i2⟩, h5, h6⟩ := bind_ok h4
      obtain ⟨-, hi2⟩ := getSpanE_ok h5
      obtain ⟨⟨rest, i3⟩, h7, h8⟩ := bind_ok h6
      have hi3 := ih h7
      injection h8 with h9
      injection h9 with h9a h9b
      omega

theorem parseSubBlocks_agree (h : AgreeFrom k b1 b2) :
    ∀ (n i : Nat), k ≤ i → Gif.parseSubBlocks b1 i n = Gif.parseSubBlocks b2 i n := by
  intro n
  induction n with
  | zero =>
    intro i hk
    rfl
  | succ n ih =>
    intro i hk
    unfold Gif.parseSubBlocks
    refine bindA (peek_agree h hk) ?_
    intro p hp
    dsimp only
    split
    · rw [next_agree h hk]
    · refine bindA (next_agree h hk) ?_
      rintro ⟨len, i1⟩ h1
      obtain rfl := next_ok h1
      dsimp only
      refine bindA (getSpanE_agree h _ _) ?_
      rintro ⟨sp, i2⟩ h2
      obtain ⟨hsp, rfl⟩ := getSpanE_ok h2
      subst hsp
      dsimp only
      refine bindA (ih _ (by omega)) ?_
      rintro ⟨rest, i3⟩ h3
      rw [bytesForSpan_agree h ⟨i + 1, i + 1 + len⟩ (by omega : k ≤ i + 1)]

theorem parseLSD_ok {b : Bytes} {i : Nat} {v : Gif.LogicalScreenDescriptor} {j : Nat}
    (h : Gif.parseLogicalScreenDescriptor b i = .ok (v, j)) : j = i + 7 := by
  unfold Gif.parseLogicalScreenDescriptor at h
  obtain ⟨⟨w1, i1⟩, h1, h⟩ := bind_ok h
  have e1 := readU16_ok h1
  obtain ⟨⟨w2, i2⟩, h2, h⟩ := bind_ok h
  have e2 := readU16_ok h2
  obtain ⟨⟨w3, i3⟩, h3, h⟩ := bind_ok h
  have e3 := next_ok h3
  obtain ⟨⟨w4, i4⟩, h4, h⟩ := bind_ok h
  have e4 := next_ok h4
  obtain ⟨⟨w5, i5⟩, h5, h⟩ := bind_ok h
  have e5 := next_ok h5
  injection h with h6
  injection h6 with h6a h6b
  omega

theorem parseLSD_agree (h : AgreeFrom k b1 b2) {i : Nat} (hk : k ≤ i) :
    Gif.parseLogicalScreenDescriptor b1 i = Gif.parseLogicalScreenDescriptor b2 i := by
  unfold Gif.parseLogicalScreenDescriptor
  refine bindA (readU16_agree h true hk) ?_
  rintro ⟨w1, i1⟩ h1
  obtain rfl := readU16_ok h1
  dsimp only
  refine bindA (readU16_agree h true (by omega)) ?_
  rintro ⟨w2, i2⟩ h2
  obtain rfl := readU16_ok h2
  dsimp only
  refine bindA (next_agree h (by omega)) ?_
  rintro ⟨w3, i3⟩ h3
  obtain rfl := next_ok h3
  dsimp only
  refine bindA (next_agree h (by omega)) ?_
  rintro ⟨w4, i4⟩ h4
  obtain rfl := next_ok h4
  dsimp only
  refine bindA (next_agree h (by omega)) ?_
  rintro ⟨w5, i5⟩ h5
  rfl

theorem parseGCT_ok {b : Bytes} {i : Nat} {lsd : Gif.LogicalScreenDescriptor}
    {v : Option Gif.ColorTable} {j : Nat}
    (h : Gif.parseGlobalColorTable b i lsd = .ok (v, j)) : i ≤ j := by
  unfold Gif.parseGlobalColorTable at h
  split at h
  · injection h with h1
    injection h1 with h1a h1b
    omega
  · obtain ⟨⟨sp, i1⟩, h1, h2⟩ := bind_ok h
    obtain ⟨-, hj⟩ := getSpanE_ok h1
    obtain ⟨colors, h3, h4⟩ := bind_ok h2
    injection h4 with h5
    injection h5 with h5a h5b
    omega

theorem parseGCT_agree (h : AgreeFrom k b1 b2) {i : Nat} (hk : k ≤ i)
    (lsd : Gif.LogicalScreenDescriptor) :
    Gif.parseGlobalColorTable b1 i lsd = Gif.parseGlobalColorTable b2 i lsd := by
  unfold Gif.parseGlobalColorTable
  split
  · rfl
  · refine bindA (getSpanE_agree h _ _) ?_
    rintro ⟨sp, i1⟩ h1
    obtain ⟨hsp, rfl⟩ := getSpanE_ok h1
    subst hsp
    dsimp only
    rw [bytesForSpan_agree h ⟨i, i + 3 * 2 ^ (lsd.globalColorTableSize + 1)⟩
      (by omega : k ≤ i)]

theorem parseImageDescriptor_ok {b : Bytes} {i : Nat} {v : Gif.ImageDescriptor} {j : Nat}
    (h : Gif.parseImageDescriptor b i = .ok (v, j)) : j = i + 10 := by
  unfold Gif.parseImageDescriptor at h
  obtain ⟨⟨w1, i1⟩, h1, h⟩ := bind_ok h
  have e1 := next_ok h1
  obtain ⟨⟨w2, i2⟩, h2, h⟩ := bind_ok h
  have e2 := readU16_ok h2
  obtain ⟨⟨w3, i3⟩, h3, h⟩ := bind_ok h
  have e3 := readU16_ok h3
  obtain ⟨⟨w4, i4⟩, h4, h⟩ := bind_ok h
  have e4 := readU16_ok h4
  obtain ⟨⟨w5, i5⟩, h5, h⟩ := bind_ok h
  have e5 := readU16_ok h5
  obtain ⟨⟨w6, i6⟩, h6, h⟩ := bind_ok h
  have e6 := next_ok h6
  injection h with h7
  injection h7 with h7a h7b
  omega

theorem parseImageDescriptor_agree (h : AgreeFrom k b1 b2) {i : Nat} (hk : k ≤ i) :
    Gif.parseImageDescriptor b1 i = Gif.parseImageDescriptor b2 i := by
  unfold Gif.parseImageDescriptor
  refine bindA (next_agree h hk) ?_
  rintro ⟨w1, i1⟩ h1
  obtain rfl := next_ok h1
  dsimp only
  refine bindA (readU16_agree h true (by omega)) ?_
  rintro ⟨w2, i2⟩ h2
  obtain rfl := readU16_ok h2
  dsimp only
  refine bindA (readU16_agree h true (by omega)) ?_
  rintro ⟨w3, i3⟩ h3
  obtain rfl := readU16_ok h3
  dsimp only
  refine bindA (readU16_agree h true (by omega)) ?_
  rintro ⟨w4, i4⟩ h4
  obtain rfl := readU16_ok h4
  dsimp only
  refine bindA (readU16_agree h true (by omega)) ?_
  rintro ⟨w5, i5⟩ h5
  obtain rfl := readU16_ok h5
  dsimp only
  refine bindA (next_agree h (by omega)) ?_
  rintro ⟨w6, i6⟩ h6
  rfl

end GifAgree

end FileInspector

namespace FileInspector

section GifAgree2

variable {k : Nat} {b1 b2 : Bytes}

theorem parseGce_ok {b : Bytes} {st i : Nat} {v : Gif.Extension} {j : Nat}
    (h : Gif.parseGce b st i = .ok (v, j)) : j = i + 6 := by
  unfold Gif.parseGce at h
  obtain ⟨⟨w1, i1⟩, h1, h⟩ := bind_ok h
  have e1 := next_ok h1
  obtain ⟨⟨w2, i2⟩, h2, h⟩ := bind_ok h
  have e2 := next_ok h2
  obtain ⟨⟨w3, i3⟩, h3, h⟩ := bind_ok h
  have e3 := readU16_ok h3
  obtain ⟨⟨w4, i4⟩, h4, h⟩ := bind_ok h
  have e4 := next_ok h4
  obtain ⟨⟨w5, i5⟩, h5, h⟩ := bind_ok h
  have e5 := next_ok h5
  injection h with h6
  injection h6 with h6a h6b
  omega

theorem parseGce_agree (h : AgreeFrom k b1 b2) (st : Nat) {i : Nat} (hk : k ≤ i) :
    Gif.parseGce b1 st i = Gif.parseGce b2 st i := by
  unfold Gif.parseGce
  refine bindA (next_agree h hk) ?_
  rintro ⟨w1, i1⟩ h1
  obtain rfl := next_ok h1
  dsimp only
  refine bindA (next_agree h (by omega)) ?_
  rintro ⟨w2, i2⟩ h2
  obtain rfl := next_ok h2
  dsimp only
  refine bindA (readU16_agree h true (by omega)) ?_
  rintro ⟨w3, i3⟩ h3
  obtain rfl := readU16_ok h3
  dsimp only
  refine bindA (next_agree h (by omega)) ?_
  rintro ⟨w4, i4⟩ h4
  obtain rfl := next_ok h4
  dsimp only
  refine bindA (next_agree h (by omega)) ?_
  rintro ⟨w5, i5⟩ h5
  rfl

theorem parseApplicationExtension_ok {b : Bytes} {st i : Nat} {v : Gif.Extension} {j : Nat}
    (h : Gif.parseApplicationExtension b st i = .ok (v, j)) : j = i + 17 := by
  unfold Gif.parseApplicationExtension at h
  obtain ⟨⟨sp1, i1⟩, h1, h⟩ := bind_ok h
  obtain ⟨-, e1⟩ := getSpanE_ok h1
  obtain ⟨⟨sp2, i2⟩, h2, h⟩ := bind_ok h
  obtain ⟨-, e2⟩ := getSpanE_ok h2
  obtain ⟨⟨w3, i3⟩, h3, h⟩ := bind_ok h
  have e3 := next_ok h3
  obtain ⟨⟨w4, i4⟩, h4, h⟩ := bind_ok h
  have e4 := next_ok h4
  obtain ⟨⟨w5, i5⟩, h5, h⟩ := bind_ok h
  have e5 := readU16_ok h5
  obtain ⟨⟨w6, i6⟩, h6, h⟩ := bind_ok h
  have e6 := readU16_ok h6
  injection h with h7
  injection h7 with h7a h7b
  omega

theorem parseApplicationExtension_agree (h : AgreeFrom k b1 b2) (st : Nat) {i : Nat}
    (hk : k ≤ i) :
    Gif.parseApplicationExtension b1 st i = Gif.parseApplicationExtension b2 st i := by
  unfold Gif.parseApplicationExtension
  refine bindA (getSpanE_agree h _ _) ?_
  rintro ⟨sp1, i1⟩ h1
  obtain ⟨-, rfl⟩ := getSpanE_ok h1
  dsimp only
  refine bindA (getSpanE_agree h _ _) ?_
  rintro ⟨sp2, i2⟩ h2
  obtain ⟨-, rfl⟩ := getSpanE_ok h2
  dsimp only
  refine bindA (next_agree h (by omega)) ?_
  rintro ⟨w3, i3⟩ h3
  obtain rfl := next_ok h3
  dsimp only
  refine bindA (next_agree h (by omega)) ?_
  rintro ⟨w4, i4⟩ h4
  obtain rfl := next_ok h4
  dsimp only
  refine bindA (readU16_agree h true (by omega)) ?_
  rintro ⟨w5, i5⟩ h5
  obtain rfl := readU16_ok h5
  dsimp only
  refine bindA (readU16_agree h true (by omega)) ?_
  rintro ⟨w6, i6⟩ h6
  rfl

theorem parsePlainTextExtension_ok {b : Bytes} {st i : Nat} {v : Gif.Extension} {j : Nat}
    (h : Gif.parsePlainTextExtension b st i = .ok (v, j)) : i ≤ j := by
  unfold Gif.parsePlainTextExtension at h
  obtain ⟨⟨w1, i1⟩, h1, h⟩ := bind_ok h
  have e1 := next_ok h1
  obtain ⟨⟨sp, i2⟩, h2, h⟩ := bind_ok h
  obtain ⟨-, e2⟩ := getSpanE_ok h2
  obtain ⟨⟨data, i3⟩, h3, h⟩ := bind_ok h
  have e3 := parseSubBlocks_ok h3
  injection h with h4
  injection h4 with h4a h4b
  omega

theorem parsePlainTextExtension_agree (h : AgreeFrom k b1 b2) (st : Nat) {i : Nat}
    (hk : k ≤ i) :
    Gif.parsePlainTextExtension b1 st i = Gif.parsePlainTextExtension b2 st i := by
  unfold Gif.parsePlainTextExtension
  refine bindA (next_agree h hk) ?_
  rintro ⟨w1, i1⟩ h1
  obtain rfl := next_ok h1
  dsimp only
  refine bindA (getSpanE_agree h _ _) ?_
  rintro ⟨sp, i2⟩ h2
  obtain ⟨-, rfl⟩ := getSpanE_ok h2
  dsimp only
  rw [h.len]
  refine bindA (parseSubBlocks_agree h _ _ (by omega)) ?_
  rintro ⟨data, i3⟩ h3
  rfl

theorem parseCommentExtension_ok {b : Bytes} {st i : Nat} {v : Gif.Extension} {j : Nat}
    (h : Gif.parseCommentExtension b st i = .ok (v, j)) : i ≤ j := by
  unfold Gif.parseCommentExtension at h
  obtain ⟨⟨data, i1⟩, h1, h⟩ := bind_ok h
  have e1 := parseSubBlocks_ok h1
  injection h with h2
  injection h2 with h2a h2b
  omega

theorem parseCommentExtension_agree (h : AgreeFrom k b1 b2) (st : Nat) {i : Nat}
    (hk : k ≤ i) :
    Gif.parseCommentExtension b1 st i = Gif.parseCommentExtension b2 st i := by
  unfold Gif.parseCommentExtension
  rw [h.len]
  refine bindA (parseSubBlocks_agree h _ _ hk) ?_
  rintro ⟨data, i1⟩ h1
  rfl

theorem parseExtension_ok {b : Bytes} {i : Nat} {v : Gif.Extension} {j : Nat}
    (h : Gif.parseExtension b i = .ok (v, j)) : i ≤ j := by
  unfold Gif.parseExtension at h
  obtain ⟨⟨w1, i1⟩, h1, h2⟩ := bind_ok h
  have e1 := next_ok h1
  obtain ⟨⟨label, i2⟩, h3, h4⟩ := bind_ok h2
  have e2 := next_ok h3
  dsimp only at h4
  by_cases c1 : label = 0x01
  · rw [if_pos c1] at h4
    have := parsePlainTextExtension_ok h4
    omega
  · rw [if_neg c1] at h4
    by_cases c2 : label = 0xf9
    · rw [if_pos c2] at h4
      have := parseGce_ok h4
      omega
    · rw [if_neg c2] at h4
      by_cases c3 : label = 0xff
      · rw [if_pos c3] at h4
        have := parseApplicationExtension_ok h4
        omega
      · rw [if_neg c3] at h4
        by_cases c4 : label = 0xfe
        · rw [if_pos c4] at h4
          have := parseCommentExtension_ok h4
          omega
        · rw [if_neg c4] at h4
          cases h4

theorem parseExtension_agree (h : AgreeFrom k b1 b2) {i : Nat} (hk : k ≤ i) :
    Gif.parseExtension b1 i = Gif.parseExtension b2 i := by
  unfold Gif.parseExtension
  refine bindA (next_agree h hk) ?_
  rintro ⟨w1, i1⟩ h1
  obtain rfl := next_ok h1
  dsimp only
  refine bindA (next_agree h (by omega)) ?_
  rintro ⟨label, i2⟩ h2
  obtain rfl := next_ok h2
  dsimp only
  by_cases c1 : label = 0x01
  · rw [if_pos c1, if_pos c1]
    exact parsePlainTextExtension_agree h _ (by omega)
  · rw [if_neg c1, if_neg c1]
    by_cases c2 : label = 0xf9
    · rw [if_pos c2, if_pos c2]
      exact parseGce_agree h _ (by omega)
    · rw [if_neg c2, if_neg c2]
      by_cases c3 : label = 0xff
      · rw [if_pos c3, if_pos c3]
        exact parseApplicationExtension_agree h _ (by omega)
      · rw [if_neg c3, if_neg c3]
        by_cases c4 : label = 0xfe
        · rw [if_pos c4, if_pos c4]
          exact parseCommentExtension_agree h _ (by omega)
        · rw [if_neg c4, if_neg c4]

theorem parseExtensions_ok {b : Bytes} :
    ∀ {n i : Nat} {v : List Gif.Extension} {j : Nat},
      Gif.parseExtensions b i n = .ok (v, j) → i ≤ j := by
  intro n
  induction n with
  | zero =>
    intro i v j h
    cases h
  | succ n ih =>
    intro i v j h
    unfold Gif.parseExtensions at h
    obtain ⟨p, hp, h2⟩ := bind_ok h
    split at h2
    · obtain ⟨⟨e0, i1⟩, h3, h4⟩ := bind_ok h2
      have e1 := parseExtension_ok h3
      obtain ⟨⟨rest, i2⟩, h5, h6⟩ := bind_ok h4
      have e2 := ih h5
      injection h6 with h7
      injection h7 with h7a h7b
      omega
    · injection h2 with h3
      injection h3 with h3a h3b
      omega

theorem parseExtensions_agree (h : AgreeFrom k b1 b2) :
    ∀ (n i : Nat), k ≤ i → Gif.parseExtensions b1 i n = Gif.parseExtensions b2 i n := by
  intro n
  induction n with
  | zero =>
    intro i hk
    rfl
  | succ n ih =>
    intro i hk
    unfold Gif.parseExtensions
    refine bindA (peek_agree h hk) ?_
    intro p hp
    dsimp only
    split
    · refine bindA (parseExtension_agree h hk) ?_
      rintro ⟨e0, i1⟩ h1
      dsimp only
      refine bindA (ih i1 (le_trans hk (parseExtension_ok h1))) ?_
      rintro ⟨rest, i2⟩ h2
      rfl
    · rfl

theorem parseImages_ok {b : Bytes} :
    ∀ {n i : Nat} {v : List Gif.Image} {j : Nat},
      Gif.parseImages b i n = .ok (v, j) → i ≤ j := by
  intro n
  induction n with
  | zero =>
    intro i v j h
    cases h
  | succ n ih =>
    intro i v j h
    unfold Gif.parseImages at h
    obtain ⟨p, hp, h2⟩ := bind_ok h
    split at h2
    · injection h2 with h3
      injection h3 with h3a h3b
      omega
    · obtain ⟨⟨exts, j1⟩, h3, h4⟩ := bind_ok h2
      have f1 := parseExtensions_ok h3
      obtain ⟨⟨dsc, j2⟩, h5, h6⟩ := bind_ok h4
      have f2 := parseImageDescriptor_ok h5
      dsimp only at h6
      split at h6
      · obtain ⟨⟨sp, j3⟩, h7, h8⟩ := bind_ok h6
        obtain ⟨-, f3⟩ := getSpanE_ok h7
        obtain ⟨colors, h9, h10⟩ := bind_ok h8
        obtain ⟨y, hy, h11⟩ := bind_ok h10
        obtain ⟨ylct, yj⟩ := y
        injection hy with hy1
        injection hy1 with hy1a hy1b
        obtain ⟨⟨mcs, j4⟩, h12, h13⟩ := bind_ok h11
        have f4 := next_ok h12
        obtain ⟨⟨data, j5⟩, h14, h15⟩ := bind_ok h13
        have f5 := parseSubBlocks_ok h14
        obtain ⟨⟨rest, j6⟩, h16, h17⟩ := bind_ok h15
        have f6 := ih h16
        injection h17 with h18
        injection h18 with h18a h18b
        omega
      · obtain ⟨y, hy, h11⟩ := bind_ok h6
        obtain ⟨ylct, yj⟩ := y
        injection hy with hy1
        injection hy1 with hy1a hy1b
        obtain ⟨⟨mcs, j4⟩, h12, h13⟩ := bind_ok h11
        have f4 := next_ok h12
        obtain ⟨⟨data, j5⟩, h14, h15⟩ := bind_ok h13
        have f5 := parseSubBlocks_ok h14
        obtain ⟨⟨rest, j6⟩, h16, h17⟩ := bind_ok h15
        have f6 := ih h16
        injection h17 with h18
        injection h18 with h18a h18b
        omega

theorem parseImages_agree (h : AgreeFrom k b1 b2) :
    ∀ (n i : Nat), k ≤ i → Gif.parseImages b1 i n = Gif.parseImages b2 i n := by
  intro n
  induction n with
  | zero =>
    intro i hk
    rfl
  | succ n ih =>
    intro i hk
    unfold Gif.parseImages
    refine bindA (peek_agree h hk) ?_
    intro p hp
    dsimp only
    split
    · rfl
    · rw [h.len]
      refine bindA (parseExtensions_agree h _ i hk) ?_
      rintro ⟨extensions, i1⟩ h1
      have hk1 : k ≤ i1 := le_trans hk (parseExtensions_ok h1)
      dsimp only
      refine bindA (parseImageDescriptor_agree h hk1) ?_
      rintro ⟨descriptor, i2⟩ h2
      obtain rfl := parseImageDescriptor_ok h2
      dsimp only
      split
      · refine bindA (getSpanE_agree h _ _) ?_
        rintro ⟨sp, i3⟩ h3
        obtain ⟨hsp, rfl⟩ := getSpanE_ok h3
        subst hsp
        dsimp only
        rw [bytesForSpan_agree h
          ⟨i1 + 10, i1 + 10 + 3 * 2 ^ (descriptor.localColorTableSize + 1)⟩
          (by omega : k ≤ i1 + 10)]
        refine bindA rfl ?_
        intro colors hc
        dsimp only
        refine bindA rfl ?_
        rintro ⟨ylct, yj⟩ hy
        injection hy with hy1
        injection hy1 with hy1a hy1b
        dsimp only
        refine bindA (next_agree h (by omega)) ?_
        rintro ⟨mcs, i4⟩ h4
        obtain rfl := next_ok h4
        dsimp only
        refine bindA (parseSubBlocks_agree h _ _ (by omega)) ?_
        rintro ⟨data, i5⟩ h5
        dsimp only
        refine bindA (ih i5 (by
          have := parseSubBlocks_ok h5
          omega)) ?_
        rintro ⟨rest, i6⟩ h6
        rfl
      · refine bindA rfl ?_
        rintro ⟨ylct, yj⟩ hy
        injection hy with hy1
        injection hy1 with hy1a hy1b
        dsimp only
        refine bindA (next_agree h (by omega)) ?_
        rintro ⟨mcs, i4⟩ h4
        obtain rfl := next_ok h4
        dsimp only
        refine bindA (parseSubBlocks_agree h _ _ (by omega)) ?_
        rintro ⟨data, i5⟩ h5
        dsimp only
        refine bindA (ih i5 (by
          have := parseSubBlocks_ok h5
          omega)) ?_
        rintro ⟨rest, i6⟩ h6
        rfl

theorem gifParse_agree (h : AgreeFrom 6 b1 b2) : Gif.parse b1 = Gif.parse b2 := by
  unfold Gif.parse
  refine bindA (getSpanE_agree h 0 6) ?_
  rintro ⟨hd, i⟩ h1
  obtain ⟨-, rfl⟩ := getSpanE_ok h1
  dsimp only
  refine bindA (parseLSD_agree h (by omega)) ?_
  rintro ⟨lsd, i1⟩ h2
  obtain rfl := parseLSD_ok h2
  dsimp only
  refine bindA (parseGCT_agree h (by omega) lsd) ?_
  rintro ⟨gct, i2⟩ h3
  have hk2 : 6 ≤ i2 := le_trans (by omega) (parseGCT_ok h3)
  dsimp only
  rw [h.len]
  refine bindA (parseImages_agree h _ i2 hk2) ?_
  rintro ⟨images, i3⟩ h4
  have hk3 : 6 ≤ i3 := le_trans hk2 (parseImages_ok h4)
  dsimp only
  refine bindA (next_agree h hk3) ?_
  rintro ⟨w, i4⟩ h5
  rfl

end GifAgree2

end FileInspector

namespace FileInspector

section BmpAgree

variable {k : Nat} {b1 b2 : Bytes}

theorem parseHeader_ok {b : Bytes} {i : Nat} {v : Bmp.BmpHeader} {j : Nat}
    (h : Bmp.parseHeader b i = .ok (v, j)) : j = i + 14 := by
  unfold Bmp.parseHeader at h
  obtain ⟨⟨sp, i1⟩, h1, h⟩ := bind_ok h
  obtain ⟨-, e1⟩ := getSpanE_ok h1
  obtain ⟨⟨w2, i2⟩, h2, h⟩ := bind_ok h
  have e2 := readU32_ok h2
  obtain ⟨⟨w3, i3⟩, h3, h⟩ := bind_ok h
  have e3 := readU32_ok h3
  obtain ⟨⟨w4, i4⟩, h4, h⟩ := bind_ok h
  have e4 := readU32_ok h4
  injection h with h5
  injection h5 with h5a h5b
  omega

theorem parseHeader_agree (h : AgreeFrom k b1 b2) {i : Nat} (hk : k ≤ i + 2) :
    Bmp.parseHeader b1 i = Bmp.parseHeader b2 i := by
  unfold Bmp.parseHeader
  refine bindA (getSpanE_agree h _ _) ?_
  rintro ⟨sp, i1⟩ h1
  obtain ⟨-, rfl⟩ := getSpanE_ok h1
  dsimp only
  refine bindA (readU32_agree h true (by omega)) ?_
  rintro ⟨w2, i2⟩ h2
  obtain rfl := readU32_ok h2
  dsimp only
  refine bindA (readU32_agree h true (by omega)) ?_
  rintro ⟨w3, i3⟩ h3
  obtain rfl := readU32_ok h3
  dsimp only
  refine bindA (readU32_agree h true (by omega)) ?_
  rintro ⟨w4, i4⟩ h4
  rfl

theorem parseInfoHeader_ok {b : Bytes} {st i sz : Nat} {v : Bmp.Dib} {j : Nat}
    (h : Bmp.parseInfoHeader b st i sz = .ok (v, j)) : j = i + 36 := by
  unfold Bmp.parseInfoHeader at h
  obtain ⟨⟨w1, i1⟩, h1, h⟩ := bind_ok h
  have e1 := readU32_ok h1
  obtain ⟨⟨w2, i2⟩, h2, h⟩ := bind_ok h
  have e2 := readU32_ok h2
  obtain ⟨⟨w3, i3⟩, h3, h⟩ := bind_ok h
  have e3 := readU16_ok h3
  obtain ⟨⟨w4, i4⟩, h4, h⟩ := bind_ok h
  have e4 := readU16_ok h4
  obtain ⟨⟨w5, i5⟩, h5, h⟩ := bind_ok h
  have e5 := readU32_ok h5
  obtain ⟨⟨w6, i6⟩, h6, h⟩ := bind_ok h
  have e6 := readU32_ok h6
  obtain ⟨⟨w7, i7⟩, h7, h⟩ := bind_ok h
  have e7 := readU32_ok h7
  obtain ⟨⟨w8, i8⟩, h8, h⟩ := bind_ok h
  have e8 := readU32_ok h8
  obtain ⟨⟨w9, i9⟩, h9, h⟩ := bind_ok h
  have e9 := readU32_ok h9
  obtain ⟨⟨w10, i10⟩, h10, h⟩ := bind_ok h
  have e10 := readU32_ok h10
  injection h with h11
  injection h11 with h11a h11b
  omega

theorem parseInfoHeader_agree (h : AgreeFrom k b1 b2) (st : Nat) {i : Nat} (hk : k ≤ i)
    (sz : Nat) :
    Bmp.parseInfoHeader b1 st i sz = Bmp.parseInfoHeader b2 st i sz := by
  unfold Bmp.parseInfoHeader
  refine bindA (readU32_agree h true hk) ?_
  rintro ⟨w1, i1⟩ h1
  obtain rfl := readU32_ok h1
  dsimp only
  refine bindA (readU32_agree h true (by omega)) ?_
  rintro ⟨w2, i2⟩ h2
  obtain rfl := readU32_ok h2
  dsimp only
  refine bindA (readU16_agree h true (by omega)) ?_
  rintro ⟨w3, i3⟩ h3
  obtain rfl := readU16_ok h3
  dsimp only
  refine bindA (readU16_agree h true (by omega)) ?_
  rintro ⟨w4, i4⟩ h4
  obtain rfl := readU16_ok h4
  dsimp only
  refine bindA (readU32_agree h true (by omega)) ?_
  rintro ⟨w5, i5⟩ h5
  obtain rfl := readU32_ok h5
  dsimp only
  refine bindA (readU32_agree h true (by omega)) ?_
  rintro ⟨w6, i6⟩ h6
  obtain rfl := readU32_ok h6
  dsimp only
  refine bindA (readU32_agree h true (by omega)) ?_
  rintro ⟨w7, i7⟩ h7
  obtain rfl := readU32_ok h7
  dsimp only
  refine bindA (readU32_agree h true (by omega)) ?_
  rintro ⟨w8, i8⟩ h8
  obtain rfl := readU32_ok h8
  dsimp only
  refine bindA (readU32_agree h true (by omega)) ?_
  rintro ⟨w9, i9⟩ h9
  obtain rfl := readU32_ok h9
  dsimp only
  refine bindA (readU32_agree h true (by omega)) ?_
  rintro ⟨w10, i10⟩ h10
  rfl

end BmpAgree

end FileInspector

namespace FileInspector

section BmpAgree2

variable {k : Nat} {b1 b2 : Bytes}

theorem parseV5Header_ok {b : Bytes} {st i sz : Nat} {v : Bmp.Dib} {j : Nat}
    (h : Bmp.parseV5Header b st i sz = .ok (v, j)) : j = i + 120 := by
  unfold Bmp.parseV5Header at h
  obtain ⟨⟨w1, i1⟩, h1, h⟩ := bind_ok h
  have e1 := readU32_ok h1
  obtain ⟨⟨w2, i2⟩, h2, h⟩ := bind_ok h
  have e2 := readU32_ok h2
  obtain ⟨⟨w3, i3⟩, h3, h⟩ := bind_ok h
  have e3 := readU16_ok h3
  obtain ⟨⟨w4, i4⟩, h4, h⟩ := bind_ok h
  have e4 := readU16_ok h4
  obtain ⟨⟨w5, i5⟩, h5, h⟩ := bind_ok h
  have e5 := readU32_ok h5
  obtain ⟨⟨w6, i6⟩, h6, h⟩ := bind_ok h
  have e6 := readU32_ok h6
  obtain ⟨⟨w7, i7⟩, h7, h⟩ := bind_ok h
  have e7 := readU32_ok h7
  obtain ⟨⟨w8, i8⟩, h8, h⟩ := bind_ok h
  have e8 := readU32_ok h8
  obtain ⟨⟨w9, i9⟩, h9, h⟩ := bind_ok h
  have e9 := readU32_ok h9
  obtain ⟨⟨w10, i10⟩, h10, h⟩ := bind_ok h
  have e10 := readU32_ok h10
  obtain ⟨⟨w11, i11⟩, h11, h⟩ := bind_ok h
  have e11 := readU32_ok h11
  obtain ⟨⟨w12, i12⟩, h12, h⟩ := bind_ok h
  have e12 := readU32_ok h12
  obtain ⟨⟨w13, i13⟩, h13, h⟩ := bind_ok h
  have e13 := readU32_ok h13
  obtain ⟨⟨w14, i14⟩, h14, h⟩ := bind_ok h
  have e14 := readU32_ok h14
  obtain ⟨⟨w15, i15⟩, h15, h⟩ := bind_ok h
  obtain ⟨-, e15⟩ := getSpanE_ok h15
  obtain ⟨⟨w16, i16⟩, h16, h⟩ := bind_ok h
  have e16 := readU32_ok h16
  obtain ⟨⟨w17, i17⟩, h17, h⟩ := bind_ok h
  have e17 := readU32_ok h17
  obtain ⟨⟨w18, i18⟩, h18, h⟩ := bind_ok h
  have e18 := readU32_ok h18
  obtain ⟨⟨w19, i19⟩, h19, h⟩ := bind_ok h
  have e19 := readU32_ok h19
  obtain ⟨⟨w20, i20⟩, h20, h⟩ := bind_ok h
  have e20 := readU32_ok h20
  obtain ⟨⟨w21, i21⟩, h21, h⟩ := bind_ok h
  have e21 := readU32_ok h21
  obtain ⟨⟨w22, i22⟩, h22, h⟩ := bind_ok h
  have e22 := readU32_ok h22
  obtain ⟨⟨w23, i23⟩, h23, h⟩ := bind_ok h
  have e23 := readU32_ok h23
  obtain ⟨⟨w24, i24⟩, h24, h⟩ := bind_ok h
  have e24 := readU32_ok h24
  obtain ⟨⟨w25, i25⟩, h25, h⟩ := bind_ok h
  have e25 := readU32_ok h25
  obtain ⟨⟨w26, i26⟩, h26, h⟩ := bind_ok h
  have e26 := readU32_ok h26
  obtain ⟨⟨w27, i27⟩, h27, h⟩ := bind_ok h
  have e27 := readU32_ok h27
  obtain ⟨⟨w28, i28⟩, h28, h⟩ := bind_ok h
  have e28 := readU32_ok h28
  obtain ⟨⟨w29, i29⟩, h29, h⟩ := bind_ok h
  have e29 := readU32_ok h29
  obtain ⟨⟨w30, i30⟩, h30, h⟩ := bind_ok h
  have e30 := readU32_ok h30
  obtain ⟨⟨w31, i31⟩, h31, h⟩ := bind_ok h
  have e31 := readU32_ok h31
  injection h with hfin
  injection hfin with hfa hfb
  omega

theorem parseV5Header_agree (h : AgreeFrom k b1 b2) (st : Nat) {i : Nat} (hk : k ≤ i)
    (sz : Nat) :
    Bmp.parseV5Header b1 st i sz = Bmp.parseV5Header b2 st i sz := by
  unfold Bmp.parseV5Header
  refine bindA (readU32_agree h true hk) ?_
  rintro ⟨w1, i1⟩ h1
  obtain rfl := readU32_ok h1
  dsimp only
  refine bindA (readU32_agree h true (by omega)) ?_
  rintro ⟨w2, i2⟩ h2
  obtain rfl := readU32_ok h2
  dsimp only
  refine bindA (readU16_agree h true (by omega)) ?_
  rintro ⟨w3, i3⟩ h3
  obtain rfl := readU16_ok h3
  dsimp only
  refine bindA (readU16_agree h true (by omega)) ?_
  rintro ⟨w4, i4⟩ h4
  obtain rfl := readU16_ok h4
  dsimp only
  refine bindA (readU32_agree h true (by omega)) ?_
  rintro ⟨w5, i5⟩ h5
  obtain rfl := readU32_ok h5
  dsimp only
  refine bindA (readU32_agree h true (by omega)) ?_
  rintro ⟨w6, i6⟩ h6
  obtain rfl := readU32_ok h6
  dsimp only
  refine bindA (readU32_agree h true (by omega)) ?_
  rintro ⟨w7, i7⟩ h7
  obtain rfl := readU32_ok h7
  dsimp only
  refine bindA (readU32_agree h true (by omega)) ?_
  rintro ⟨w8, i8⟩ h8
  obtain rfl := readU32_ok h8
  dsimp only
  refine bindA (readU32_agree h true (by omega)) ?_
  rintro ⟨w9, i9⟩ h9
  obtain rfl := readU32_ok h9
  dsimp only
  refine bindA (readU32_agree h true (by omega)) ?_
  rintro ⟨w10, i10⟩ h10
  obtain rfl := readU32_ok h10
  dsimp only
  refine bindA (readU32_agree h true (by omega)) ?_
  rintro ⟨w11, i11⟩ h11
  obtain rfl := readU32_ok h11
  dsimp only
  refine bindA (readU32_agree h true (by omega)) ?_
  rintro ⟨w12, i12⟩ h12
  obtain rfl := readU32_ok h12
  dsimp only
  refine bindA (readU32_agree h true (by omega)) ?_
  rintro ⟨w13, i13⟩ h13
  obtain rfl := readU32_ok h13
  dsimp only
  refine bindA (readU32_agree h true (by omega)) ?_
  rintro ⟨w14, i14⟩ h14
  obtain rfl := readU32_ok h14
  dsimp only
  refine bindA (getSpanE_agree h _ _) ?_
  rintro ⟨w15, i15⟩ h15
  obtain ⟨-, rfl⟩ := getSpanE_ok h15
  dsimp only
  refine bindA (readU32_agree h true (by omega)) ?_
  rintro ⟨w16, i16⟩ h16
  obtain rfl := readU32_ok h16
  dsimp only
  refine bindA (readU32_agree h true (by omega)) ?_
  rintro ⟨w17, i17⟩ h17
  obtain rfl := readU32_ok h17
  dsimp only
  refine bindA (readU32_agree h true (by omega)) ?_
  rintro ⟨w18, i18⟩ h18
  obtain rfl := readU32_ok h18
  dsimp only
  refine bindA (readU32_agree h true (by omega)) ?_
  rintro ⟨w19, i19⟩ h19
  obtain rfl := readU32_ok h19
  dsimp only
  refine bindA (readU32_agree h true (by omega)) ?_
  rintro ⟨w20, i20⟩ h20
  obtain rfl := readU32_ok h20
  dsimp only
  refine bindA (readU32_agree h true (by omega)) ?_
  rintro ⟨w21, i21⟩ h21
  obtain rfl := readU32_ok h21
  dsimp only
  refine bindA (readU32_agree h true (by omega)) ?_
  rintro ⟨w22, i22⟩ h22
  obtain rfl := readU32_ok h22
  dsimp only
  refine bindA (readU32_agree h true (by omega)) ?_
  rintro ⟨w23, i23⟩ h23
  obtain rfl := readU32_ok h23
  dsimp only
  refine bindA (readU32_agree h true (by omega)) ?_
  rintro ⟨w24, i24⟩ h24
  obtain rfl := readU32_ok h24
  dsimp only
  refine bindA (readU32_agree h true (by omega)) ?_
  rintro ⟨w25, i25⟩ h25
  obtain rfl := readU32_ok h25
  dsimp only
  refine bindA (readU32_agree h true (by omega)) ?_
  rintro ⟨w26, i26⟩ h26
  obtain rfl := readU32_ok h26
  dsimp only
  refine bindA (readU32_agree h true (by omega)) ?_
  rintro ⟨w27, i27⟩ h27
  obtain rfl := readU32_ok h27
  dsimp only
  refine bindA (readU32_agree h true (by omega)) ?_
  rintro ⟨w28, i28⟩ h28
  obtain rfl := readU32_ok h28
  dsimp only
  refine bindA (readU32_agree h true (by omega)) ?_
  rintro ⟨w29, i29⟩ h29
  obtain rfl := readU32_ok h29
  dsimp only
  refine bindA (readU32_agree h true (by omega)) ?_
  rintro ⟨w30, i30⟩ h30
  obtain rfl := readU32_ok h30
  dsimp only
  refine bindA (readU32_agree h true (by omega)) ?_
  rintro ⟨w31, i31⟩ h31
  rfl

theorem parseDibHeader_ok {b : Bytes} {i : Nat} {v : Bmp.Dib} {j : Nat}
    (h : Bmp.parseDibHeader b i = .ok (v, j)) : i ≤ j := by
  unfold Bmp.parseDibHeader at h
  obtain ⟨⟨sz, i1⟩, h1, h2⟩ := bind_ok h
  have e1 := readU32_ok h1
  dsimp only at h2
  split at h2
  · have := parseV5Header_ok h2
    omega
  · have := parseInfoHeader_ok h2
    omega

theorem parseDibHeader_agree (h : AgreeFrom k b1 b2) {i : Nat} (hk : k ≤ i) :
    Bmp.parseDibHeader b1 i = Bmp.parseDibHeader b2 i := by
  unfold Bmp.parseDibHeader
  refine bindA (readU32_agree h true hk) ?_
  rintro ⟨sz, i1⟩ h1
  obtain rfl := readU32_ok h1
  dsimp only
  split
  · exact parseV5Header_agree h i (by omega) sz
  · exact parseInfoHeader_agree h i (by omega) sz

theorem parseColorTable_agree (h : AgreeFrom k b1 b2) {i : Nat} (hk : k ≤ i)
    (len : Nat) :
    Bmp.parseColorTable b1 i len = Bmp.parseColorTable b2 i len := by
  unfold Bmp.parseColorTable
  refine bindA (getSpanE_agree h _ _) ?_
  rintro ⟨sp, i1⟩ h1
  obtain ⟨hsp, rfl⟩ := getSpanE_ok h1
  subst hsp
  dsimp only
  rw [bytesForSpan_agree h ⟨i, i + len⟩ (by omega : k ≤ i)]

theorem getSpanToEnd_agree (h : AgreeFrom k b1 b2) (i : Nat) :
    Bmp.getSpanToEnd b1 i = Bmp.getSpanToEnd b2 i := by
  unfold Bmp.getSpanToEnd
  rw [h.len]

theorem bmpParse_agree (h : AgreeFrom 2 b1 b2) : Bmp.parse b1 = Bmp.parse b2 := by
  unfold Bmp.parse
  refine bindA (parseHeader_agree h (by omega)) ?_
  rintro ⟨header, i⟩ h1
  obtain rfl := parseHeader_ok h1
  dsimp only
  refine bindA (parseDibHeader_agree h (by omega)) ?_
  rintro ⟨dib, i1⟩ h2
  have hk1 : 2 ≤ i1 := le_trans (by omega) (parseDibHeader_ok h2)
  dsimp only
  split
  · refine bindA (parseColorTable_agree h hk1 _) ?_
    rintro ⟨ct, i2⟩ h3
    dsimp only
    refine bindA rfl ?_
    rintro ⟨yct, yj⟩ hy
    dsimp only
    refine bindA (getSpanToEnd_agree h _) ?_
    rintro ⟨px, i3⟩ h4
    rfl
  · refine bindA rfl ?_
    rintro ⟨yct, yj⟩ hy
    dsimp only
    refine bindA (getSpanToEnd_agree h _) ?_
    rintro ⟨px, i3⟩ h4
    rfl

end BmpAgree2

end FileInspector

namespace FileInspector

/-- C2 counterexample: the claim says every input whose leading bytes do not match
the format's magic fails with BadSignature. In the code no magic comparison
exists: a 20-byte all-zero buffer (wrong PNG signature) parses as a PNG with one
unknown zero-length chunk; 14 bytes with a zeroed header (not `GIF87a`/`GIF89a`)
parse as a GIF with no images; and a 54-byte buffer whose first two bytes are not
`BM` parses as a BMP. -/
theorem C2_counterexample :
    Png.parse pngNoMagic = .ok ⟨⟨0, 8⟩, [⟨(0, 0, 0, 0), ⟨16, 16⟩, 0, none⟩]⟩ ∧
    Gif.parse gifNoMagic = .ok ⟨⟨0, 6⟩,
      ⟨0, 0, 0, 0, 0, ⟨6, 13⟩, false, false, 0, 0⟩, none, []⟩ ∧
    Bmp.parse bmpNoMagic = .ok ⟨⟨⟨0, 2⟩, 0, 0, 54, ⟨0, 14⟩⟩,
      .info ⟨40, 0, 0, 0, 0, 0, 0, 0, 0, 0, 0, ⟨14, 54⟩⟩, none, ⟨54, 54⟩⟩ :=
  ⟨rfl, rfl, rfl⟩

/-- C2 amended: `parse_png`, `parse_gif` and `parse_bmp` never inspect their magic
bytes: the leading magic-sized span (8, 6 and 2 bytes respectively) is recorded
unchecked, and the parse result is invariant under arbitrary replacement of those
leading bytes — two equal-length inputs agreeing beyond the magic parse
identically. No BadSignature failure exists; parsing proceeds past the header
regardless of whether the magic matches. -/
theorem C2_no_magic_check (b1 b2 : Bytes) :
    (AgreeFrom 8 b1 b2 → Png.parse b1 = Png.parse b2) ∧
    (AgreeFrom 6 b1 b2 → Gif.parse b1 = Gif.parse b2) ∧
    (AgreeFrom 2 b1 b2 → Bmp.parse b1 = Bmp.parse b2) :=
  ⟨pngParse_agree, gifParse_agree, bmpParse_agree⟩

/-- C2 witness: each format parsed on a wrong-magic input and on its correct-magic
twin gives identical results. -/
theorem C2_no_magic_check_witness :
    Png.parse pngNoMagic = Png.parse pngWithMagic ∧
    Gif.parse gifNoMagic = Gif.parse gifWithMagic ∧
    Bmp.parse bmpNoMagic = Bmp.parse bmpWithMagic :=
  ⟨(C2_no_magic_check pngNoMagic pngWithMagic).1 (by decide),
   (C2_no_magic_check gifNoMagic gifWithMagic).2.1 (by decide),
   (C2_no_magic_check bmpNoMagic bmpWithMagic).2.2 (by decide)⟩

end FileInspector
